import Mathlib

/-!
BehaviorKey: keystroke capture, enrollment session and continuous verification

A shallow embedding of the client-side engine of the repository:

* `frontend/src/lib/biometrics.js`   (class `BiometricCollector`),
* `frontend/src/pages/Enrollment.jsx` (component `Enrollment`),
* `frontend/src/pages/Verification.jsx` (component `Verification`).

React state is an explicit record; every handler is a function from the record
of the latest render to the next one.  Everything a handler reads from its
environment (clock readings, `Math.random`, the answer of `window.confirm`,
the outcome of a network call) is an explicit argument.  Floating point
numbers that are only stored and compared are rationals.
-/

namespace BehaviorKey

/-! ## JavaScript built-ins used by the components -/

/-- String built-ins of the JavaScript runtime that the components call.  They
are not code of the repository, so the embedding takes them as arguments:
`toLowerCase` is `String.prototype.toLowerCase`, `toFixed0 c` is
`(c * 100).toFixed(0)` and `substring08 k` is `k.substring(0, 8)`. -/
structure Builtins where
  toLowerCase : String → String
  toFixed0 : ℚ → String
  substring08 : String → String

/-- An executable instance of the built-ins, equal to the JavaScript ones on
text made of ASCII characters; a score is rounded to the nearest integer, a
tie going up. -/
def asciiBuiltins : Builtins where
  toLowerCase := fun t => String.mk (t.data.map Char.toLower)
  toFixed0 := fun c => toString (c * 100 + 1 / 2).floor
  substring08 := fun k => String.mk (k.data.take 8)

/-! ## `lib/biometrics.js` -/

/-- The `type` of a buffered event: the strings `'keydown'` and `'keyup'`. -/
inductive EventType
  | keydown
  | keyup
  deriving DecidableEq, Repr

/-- One entry of `this.events`: `{ key, type, timestamp }`. -/
structure BiometricEvent where
  key : String
  type : EventType
  timestamp : ℚ
  deriving DecidableEq, Repr

/-- The DOM keyboard event a listener receives: which listener it goes to
(`type`), `e.key` and `e.repeat`. -/
structure KeyboardEvent where
  type : EventType
  key : String
  isRepeat : Bool
  deriving DecidableEq, Repr

/-- The fields of a `BiometricCollector`; `listening` records whether the two
window listeners are registered. -/
structure BiometricCollector where
  events : List BiometricEvent
  active : Bool
  listening : Bool
  deriving DecidableEq, Repr

namespace BiometricCollector

/-- The `constructor()`. -/
def new : BiometricCollector :=
  { events := [], active := false, listening := false }

/-- The method `start()`. -/
def start (_c : BiometricCollector) : BiometricCollector :=
  { active := true, events := [], listening := true }

/-- The method `stop()`: the new fields and the returned array. -/
def stop (c : BiometricCollector) : BiometricCollector × List BiometricEvent :=
  ({ c with active := false, listening := false }, c.events)

/-- The method `reset()`. -/
def reset (c : BiometricCollector) : BiometricCollector :=
  { c with events := [] }

/-- The method `getEvents()`: a copy of the buffer. -/
def getEvents (c : BiometricCollector) : List BiometricEvent :=
  c.events

/-- The handler `handleKeyDown`; `now` is the reading of `performance.now()`. -/
def handleKeyDown (c : BiometricCollector) (e : KeyboardEvent) (now : ℚ) :
    BiometricCollector :=
  if !c.active then c
  else if e.isRepeat then c
  else { c with events := c.events ++ [{ key := e.key, type := .keydown, timestamp := now }] }

/-- The handler `handleKeyUp`; `now` is the reading of `performance.now()`. -/
def handleKeyUp (c : BiometricCollector) (e : KeyboardEvent) (now : ℚ) :
    BiometricCollector :=
  if !c.active then c
  else { c with events := c.events ++ [{ key := e.key, type := .keyup, timestamp := now }] }

/-- Handling one key event: a keydown goes to `handleKeyDown`, a keyup to
`handleKeyUp`. -/
def handle (c : BiometricCollector) (en : KeyboardEvent × ℚ) : BiometricCollector :=
  match en.1.type with
  | .keydown => c.handleKeyDown en.1 en.2
  | .keyup => c.handleKeyUp en.1 en.2

/-- Handling a finite sequence of key events, first to last. -/
def handleAll (c : BiometricCollector) (es : List (KeyboardEvent × ℚ)) : BiometricCollector :=
  es.foldl handle c

/-- What the window does with a key event: the handlers run only while
registered. -/
def dispatch (c : BiometricCollector) (en : KeyboardEvent × ℚ) : BiometricCollector :=
  if c.listening then c.handle en else c

end BiometricCollector

/-- Whether an armed collector buffers the event: every keyup, and every
keydown that is not an auto-repeat. -/
def accepted (en : KeyboardEvent × ℚ) : Bool :=
  match en.1.type with
  | .keydown => !en.1.isRepeat
  | .keyup => true

/-- The buffer entry `{ key, type, timestamp }` made from a key event. -/
def entryOf (en : KeyboardEvent × ℚ) : BiometricEvent :=
  { key := en.1.key, type := en.1.type, timestamp := en.2 }

/-- The entries an armed collector appends for a sequence of key events. -/
def acceptedEntries (es : List (KeyboardEvent × ℚ)) : List BiometricEvent :=
  (es.filter accepted).map entryOf

/-- The event sequence `keydown(repeat=false)`, then one `keydown(repeat=true)`
for each element of `repeats`, then `keyup`; each event comes with its key and
the clock reading when it is handled. -/
def heldKey (down : String × ℚ) (repeats : List (String × ℚ)) (up : String × ℚ) :
    List (KeyboardEvent × ℚ) :=
  [(({ type := .keydown, key := down.1, isRepeat := false } : KeyboardEvent), down.2)]
    ++ repeats.map
        (fun k => (({ type := .keydown, key := k.1, isRepeat := true } : KeyboardEvent), k.2))
    ++ [(({ type := .keyup, key := up.1, isRepeat := false } : KeyboardEvent), up.2)]

/-! ## `pages/Enrollment.jsx` -/

/-- The constant `PHRASES`. -/
def PHRASES : List String :=
  [ "the quick brown fox jumps over the lazy dog",
    "pack my box with five dozen liquor jugs",
    "sphinx of black quartz judge my vow",
    "behavioral biometrics keys your identity",
    "machine learning secures the digital world",
    "security is not a product but a process",
    "cryptography ensures trust in the digital age" ]

/-- The constant `REQUIRED_SAMPLES`. -/
def REQUIRED_SAMPLES : Nat := 5

/-- `PHRASES[Math.floor(Math.random() * PHRASES.length)]`, the floor being `r`. -/
def phraseAt (r : Fin 7) : String :=
  PHRASES.getD r.val ""

/-- The values the `status` string takes. -/
inductive Status
  | idle
  | recording
  | submitting
  | success
  | error
  | success_sample
  | ready_to_submit
  deriving DecidableEq, Repr

/-- The body of one `POST /enroll`. -/
structure EnrollPayload where
  user_id : String
  samples : List (List BiometricEvent)
  deriving DecidableEq, Repr

/-- The two `setTimeout` callbacks of `handleSubmitSample`: the one of the
mismatch branch (3000 ms) and the one after an accepted sample (1500 ms). -/
inductive Timer
  | mismatch
  | acknowledge
  deriving DecidableEq, Repr

/-- The state of one mounted `Enrollment` component: its `useState` cells, the
collector of its `useRef`, the two `localStorage` items it writes, the timers
that are set and have not fired, the `/enroll` calls that have not completed,
and (as history) every `/enroll` body sent so far. -/
structure EnrollmentState where
  samples : List (List BiometricEvent)
  targetText : String
  currentInput : String
  status : Status
  submissionMsg : String
  collector : BiometricCollector
  user_id : Option String
  user_key : Option String
  timers : List Timer
  pending : List EnrollPayload
  sent : List EnrollPayload
  deriving DecidableEq, Repr

/-- The state after mounting: the initial `useState` values with the phrase set
by the first effect. -/
def EnrollmentState.init (r : Fin 7) : EnrollmentState :=
  { samples := [], targetText := phraseAt r, currentInput := "", status := .idle,
    submissionMsg := "", collector := BiometricCollector.new,
    user_id := none, user_key := none, timers := [], pending := [], sent := [] }

/-- The value the second effect stores in `progress`. -/
def progress (s : EnrollmentState) : ℚ :=
  ((s.samples.length : ℚ) / (REQUIRED_SAMPLES : ℚ)) * 100

/-- The handler `handleFocus`. -/
def handleFocus (s : EnrollmentState) : EnrollmentState :=
  { s with collector := s.collector.start }

/-- The `onChange` handler of the input. -/
def handleChange (s : EnrollmentState) (value : String) : EnrollmentState :=
  { s with currentInput := value }

/-- The handler `handleChangePhrase`; `answer` is what `window.confirm` returns
if it is called and `r` the random index of the new phrase.  The result is the
next state and whether `window.confirm` was called. -/
def handleChangePhrase (s : EnrollmentState) (answer : Bool) (r : Fin 7) :
    EnrollmentState × Bool :=
  let changed : EnrollmentState :=
    { s with
      targetText := phraseAt r, samples := [], currentInput := "", status := .idle,
      collector := s.collector.reset }
  if s.samples.length > 0 then
    if !answer then (s, true) else (changed, true)
  else (changed, false)

/-- The test of `handleSubmitSample`:
`currentInput.toLowerCase() !== targetText.toLowerCase()`. -/
def mismatch (js : Builtins) (typed target : String) : Bool :=
  js.toLowerCase typed != js.toLowerCase target

/-- The handler `handleSubmitSample`. -/
def handleSubmitSample (js : Builtins) (s : EnrollmentState) : EnrollmentState :=
  if mismatch js s.currentInput s.targetText then
    { s with
      submissionMsg := "Text mismatch. Please key it in exactly as shown.",
      status := .error,
      timers := s.timers ++ [Timer.mismatch],
      currentInput := "",
      collector := s.collector.reset }
  else
    let events := s.collector.getEvents
    let newSamples := s.samples ++ [events]
    if newSamples.length ≥ REQUIRED_SAMPLES then
      { s with
        samples := newSamples, currentInput := "", collector := s.collector.reset,
        status := .ready_to_submit,
        submissionMsg := "Sufficient data collected. Ready to finalize enrollment." }
    else
      { s with
        samples := newSamples, currentInput := "", collector := s.collector.reset,
        status := .success_sample,
        submissionMsg := "Sample recorded successfully!",
        timers := s.timers ++ [Timer.acknowledge] }

/-- A timer callback of `handleSubmitSample` runs: both set the message to the
empty string and the status to `idle`. -/
def timerFires (s : EnrollmentState) (i : Nat) : EnrollmentState :=
  { s with submissionMsg := "", status := .idle, timers := s.timers.eraseIdx i }

/-- The handler `finishEnrollment` up to its `await`: `n` is
`Math.floor(Math.random() * 10000)`. -/
def finishEnrollment (s : EnrollmentState) (n : Fin 10000) : EnrollmentState :=
  let payload : EnrollPayload := { user_id := "user_" ++ toString n.val, samples := s.samples }
  { s with status := .submitting, pending := s.pending ++ [payload], sent := s.sent ++ [payload] }

/-- The rest of `finishEnrollment` when the call of `p` returns `key`. -/
def enrollResolved (s : EnrollmentState) (i : Nat) (p : EnrollPayload) (key : String) :
    EnrollmentState :=
  { s with
    user_id := some p.user_id, user_key := some key, status := .success,
    submissionMsg := "Identity Model Trained & Key Generated. Redirecting...",
    pending := s.pending.eraseIdx i }

/-- The `catch` branch of `finishEnrollment`. -/
def enrollRejected (s : EnrollmentState) (i : Nat) : EnrollmentState :=
  { s with
    status := .error,
    submissionMsg := "Server error during enrollment. Ensure backend is running.",
    pending := s.pending.eraseIdx i }

/-- The `disabled` attribute of the text input. -/
def inputDisabled (s : EnrollmentState) : Bool :=
  s.status == .submitting || s.status == .success || s.status == .ready_to_submit

/-- What can happen to a mounted `Enrollment` component. -/
inductive EnrollOp
  | focus
  | key (e : KeyboardEvent) (now : ℚ)
  | typeText (value : String)
  | submitSample
  | changePhrase (answer : Bool) (r : Fin 7)
  | finish (n : Fin 10000)
  | resolved (i : Nat) (key : String)
  | rejected (i : Nat)
  | timer (i : Nat)
  deriving DecidableEq, Repr

/-- Whether the rendered page lets the operation happen: the input takes focus
and text unless disabled; the form is submitted through the `Next Sample`
button, rendered when the status is not `ready_to_submit` and enabled when the
input is not empty; `Complete Enrollment` is rendered exactly in
`ready_to_submit`; a call completes only while pending, a timer fires only
while set. -/
def enabled (s : EnrollmentState) : EnrollOp → Bool
  | .focus => !inputDisabled s
  | .key _ _ => true
  | .typeText _ => !inputDisabled s
  | .submitSample => s.status != .ready_to_submit && s.currentInput.length != 0
  | .changePhrase _ _ => true
  | .finish _ => s.status == .ready_to_submit
  | .resolved i _ => decide (i < s.pending.length)
  | .rejected i => decide (i < s.pending.length)
  | .timer i => decide (i < s.timers.length)

/-- The effect of one operation. -/
def apply (js : Builtins) (s : EnrollmentState) : EnrollOp → EnrollmentState
  | .focus => handleFocus s
  | .key e now => { s with collector := s.collector.dispatch (e, now) }
  | .typeText value => handleChange s value
  | .submitSample => handleSubmitSample js s
  | .changePhrase answer r => (handleChangePhrase s answer r).1
  | .finish n => finishEnrollment s n
  | .resolved i key =>
    match s.pending.get? i with
    | some p => enrollResolved s i p key
    | none => s
  | .rejected i => enrollRejected s i
  | .timer i => timerFires s i

/-- Running a sequence of operations; `none` when one of them is not enabled in
the state it meets. -/
def runOps (js : Builtins) : EnrollmentState → List EnrollOp → Option EnrollmentState
  | s, [] => some s
  | s, op :: ops => if enabled s op then runOps js (apply js s op) ops else none

/-- The states a session can be in: those some sequence of enabled operations
leads to from a freshly mounted component. -/
def Reachable (js : Builtins) (s : EnrollmentState) : Prop :=
  ∃ r ops, runOps js (EnrollmentState.init r) ops = some s

/-- The invariant behind `finishEnrollment`: in `ready_to_submit` the sample
list has at least `REQUIRED_SAMPLES` elements, and so has every `/enroll` body
sent so far. -/
abbrev SentOk (s : EnrollmentState) : Prop :=
  (s.status = .ready_to_submit → REQUIRED_SAMPLES ≤ s.samples.length)
  ∧ ∀ p ∈ s.sent, REQUIRED_SAMPLES ≤ p.samples.length

/-- Typing the target phrase and submitting it, `k` times over. -/
def typeAndSubmit (phrase : String) : Nat → List EnrollOp
  | 0 => []
  | k + 1 => [EnrollOp.typeText phrase, EnrollOp.submitSample] ++ typeAndSubmit phrase k

/-- Focus, five accepted samples of the first phrase, then
`Complete Enrollment`. -/
def fiveThenFinish : List EnrollOp :=
  [EnrollOp.focus] ++ typeAndSubmit (phraseAt 0) 5 ++ [EnrollOp.finish 42]

/-- Focus, five accepted samples, an `/enroll` call that fails, and the phrase
typed and submitted once more. -/
def sixthSampleOps : List EnrollOp :=
  [EnrollOp.focus] ++ typeAndSubmit (phraseAt 0) 5
    ++ [EnrollOp.finish 42, EnrollOp.rejected 0, EnrollOp.typeText (phraseAt 0),
        EnrollOp.submitSample]

/-- A state holding one sample, in which the phrase change asks. -/
def oneSampleState : EnrollmentState :=
  { EnrollmentState.init 0 with
    samples := [[{ key := "t", type := .keydown, timestamp := 1 }]],
    currentInput := "th", status := .success_sample }

/-- What is remembered of an accepted attempt: the text that was typed and the
target phrase it was compared with. -/
structure Validation where
  typed : String
  target : String
  deriving DecidableEq, Repr

/-- The validation records of the samples held, across one operation: an
attempt that is accepted adds the record of its comparison at the end, a phrase
change that goes through drops the records with the samples, anything else
keeps them. -/
def validations (js : Builtins) (s : EnrollmentState) (vs : List Validation) :
    EnrollOp → List Validation
  | .submitSample =>
    if mismatch js s.currentInput s.targetText then vs
    else vs ++ [{ typed := s.currentInput, target := s.targetText }]
  | .changePhrase answer _ => if s.samples.length > 0 && !answer then vs else []
  | _ => vs

/-- The function `runOps`, keeping the validation records alongside the state. -/
def runTagged (js : Builtins) :
    EnrollmentState → List Validation → List EnrollOp → Option (EnrollmentState × List Validation)
  | s, vs, [] => some (s, vs)
  | s, vs, op :: ops =>
    if enabled s op then runTagged js (apply js s op) (validations js s vs op) ops else none

/-- What the validation records say of a state: one record per sample, each
against the current target phrase and each a match. -/
abbrev ValidatedOk (js : Builtins) (s : EnrollmentState) (vs : List Validation) : Prop :=
  vs.length = s.samples.length
  ∧ ∀ v ∈ vs, v.target = s.targetText ∧ mismatch js v.typed v.target = false

/-- Focus, five accepted samples, `Complete Enrollment`, and the `/enroll` call
fails. -/
def failedEnrollOps : List EnrollOp :=
  fiveThenFinish ++ [EnrollOp.rejected 0]

/-- The phrase typed and submitted once more. -/
def retryOps : List EnrollOp :=
  [EnrollOp.typeText (phraseAt 0), EnrollOp.submitSample]

/-- Focus, two strokes buffered, and a text in the input that is not the target
phrase `PHRASES[0]`. -/
def wrongTextState : EnrollmentState :=
  { EnrollmentState.init 0 with
    samples := [[{ key := "t", type := .keydown, timestamp := 1 }]],
    currentInput := "the quick brown fo",
    collector :=
      { events := [{ key := "t", type := .keydown, timestamp := 5 },
                   { key := "t", type := .keyup, timestamp := 6 }],
        active := true, listening := true } }

/-- The same state with the target phrase typed, in capitals. -/
def rightTextState : EnrollmentState :=
  { wrongTextState with currentInput := "THE QUICK BROWN FOX JUMPS OVER THE LAZY DOG" }

/-- Focus, an accepted sample, a phrase change that is confirmed, and an
accepted sample of the new phrase. -/
def changedPhraseOps : List EnrollOp :=
  [EnrollOp.focus] ++ typeAndSubmit (phraseAt 0) 1 ++ [EnrollOp.changePhrase true 2]
    ++ typeAndSubmit (phraseAt 2) 1

/-! ## `pages/Verification.jsx` -/

/-- The `type` of a log entry. -/
inductive LogType
  | info
  | success
  | warning
  | error
  deriving DecidableEq, Repr

/-- One entry of `logs`: `{ time, text, type }`. -/
structure LogEntry where
  time : String
  text : String
  type : LogType
  deriving DecidableEq, Repr

/-- The body of one `POST /verify`. -/
structure VerifyPayload where
  user_id : String
  events : List BiometricEvent
  request_ts : ℚ
  deriving DecidableEq, Repr

/-- The `res.data` of a `/verify` call that succeeds; `key` may be missing. -/
structure VerifyResponse where
  authenticated : Bool
  confidence : ℚ
  key : Option String
  deriving DecidableEq, Repr

/-- The state of one `Verification` component: its `useState` cells, the
collector of its `useRef`, the `localStorage` item it reads, whether the
interval is set (it is from the mount to the unmount of the component), the
`/verify` calls that have not completed and (as history) every `/verify` body
sent so far. -/
structure VerificationState where
  msg : String
  typingStatus : String
  confidence : ℚ
  unlockedKey : Option String
  collector : BiometricCollector
  secretData : String
  logs : List LogEntry
  user_id : Option String
  running : Bool
  inFlight : List VerifyPayload
  sent : List VerifyPayload
  deriving DecidableEq, Repr

/-- The function `addLog`; `time` is `new Date().toLocaleTimeString()`. -/
def addLog (s : VerificationState) (time text : String) (type : LogType) : VerificationState :=
  { s with logs := ({ time := time, text := text, type := type } :: s.logs).take 10 }

/-- The state after mounting: the initial `useState` values and the first two
statements of the effect; `stored` is the persisted `user_id`. -/
def VerificationState.init (stored : Option String) (time : String) : VerificationState :=
  addLog
    { msg := "", typingStatus := "Monitoring...", confidence := 0, unlockedKey := none,
      collector := BiometricCollector.new.start, secretData := "LOCKED CONTENT - ENCRYPTED",
      logs := [], user_id := stored, running := true, inFlight := [], sent := [] }
    time "Biometric Collector Started" .info

/-- The value `Date.now() / 1000`, for the reading `now` in milliseconds. -/
def requestTs (now : ℕ) : ℚ :=
  (now : ℚ) / 1000

/-- The interval callback up to its `await`: `now` is `Date.now()` and `time`
the time of day for `addLog`.  A `user_id` that is missing or the empty string
is falsy. -/
def tick (s : VerificationState) (now : ℕ) (time : String) : VerificationState :=
  let events := s.collector.getEvents
  if events.length < 3 then s
  else
    let s1 := { s with collector := s.collector.reset }
    match s.user_id with
    | none => addLog s1 time "No User ID found. Please Enroll first." .error
    | some userId =>
      if userId = "" then addLog s1 time "No User ID found. Please Enroll first." .error
      else
        let payload : VerifyPayload :=
          { user_id := userId, events := events, request_ts := requestTs now }
        { s1 with inFlight := s1.inFlight ++ [payload], sent := s1.sent ++ [payload] }

/-- The `catch` branch of the interval callback; `status` is
`err.response.status` when the error has a response. -/
def verifyFailed (s : VerificationState) (i : Nat) (status : Option Nat) (time : String) :
    VerificationState :=
  let s1 := { s with inFlight := s.inFlight.eraseIdx i }
  if status = some 401 then addLog s1 time "Security Alert: Replay Detected!" .error
  else addLog s1 time "Server Error / Network Issue" .error

/-- The interval callback after its `await` when the call returns `res`.  With
`authenticated` set and no `key`, `res.data.key.substring` throws after the
first setters have run and the `catch` branch logs the error. -/
def verifyResolved (js : Builtins) (s : VerificationState) (i : Nat) (res : VerifyResponse)
    (time : String) : VerificationState :=
  let conf := res.confidence
  let s1 := { s with confidence := conf }
  if res.authenticated then
    match res.key with
    | some key =>
      addLog
        { s1 with
          unlockedKey := some key, typingStatus := "VERIFIED",
          secretData := "DECRYPTED: " ++ js.substring08 key ++ "...",
          inFlight := s.inFlight.eraseIdx i }
        time ("Auth Success (Score: " ++ js.toFixed0 conf ++ "%)") .success
    | none =>
      verifyFailed { s1 with unlockedKey := none, typingStatus := "VERIFIED" } i none time
  else
    addLog
      { s1 with
        unlockedKey := none, typingStatus := "SUSPICIOUS",
        secretData := "LOCKED CONTENT - ENCRYPTED",
        inFlight := s.inFlight.eraseIdx i }
      time ("Auth Failed (Score: " ++ js.toFixed0 conf ++ "%)") .warning

/-- The cleanup of the effect: `clearInterval(interval)` and
`collector.current.stop()`.  The effect has no dependencies, so the cleanup
runs when the component is unmounted. -/
def cleanup (s : VerificationState) : VerificationState :=
  { s with running := false, collector := s.collector.stop.1 }

/-- What becomes of the state `next` that the rest of the interval callback
computes from `s` when its call completes: while the component is mounted it
is the next state; after the unmount React drops the calls of the `useState`
setters of the component, so the cells stay as they are and all that changes
is that the call is no longer outstanding. -/
def settle (s next : VerificationState) : VerificationState :=
  if s.running then next else { s with inFlight := next.inFlight }

/-- What can happen to a `Verification` component once mounted. -/
inductive VerifyOp
  | key (e : KeyboardEvent) (now : ℚ)
  | typeText (value : String)
  | tick (now : ℕ) (time : String)
  | resolved (i : Nat) (res : VerifyResponse) (time : String)
  | failed (i : Nat) (status : Option Nat) (time : String)
  | cleanup
  deriving DecidableEq, Repr

namespace VerifyOp

/-- Whether the operation can happen: the interval fires only while set, a
call completes only while outstanding. -/
def enabled (s : VerificationState) : VerifyOp → Bool
  | .key _ _ => true
  | .typeText _ => s.running
  | .tick _ _ => s.running
  | .resolved i _ _ => decide (i < s.inFlight.length)
  | .failed i _ _ => decide (i < s.inFlight.length)
  | .cleanup => s.running

/-- The effect of one operation. -/
def apply (js : Builtins) (s : VerificationState) : VerifyOp → VerificationState
  | .key e now => { s with collector := s.collector.dispatch (e, now) }
  | .typeText value => { s with msg := value }
  | .tick now time => BehaviorKey.tick s now time
  | .resolved i res time => settle s (verifyResolved js s i res time)
  | .failed i status time => settle s (verifyFailed s i status time)
  | .cleanup => BehaviorKey.cleanup s

/-- Running a sequence of operations; `none` when one of them is not enabled in
the state it meets. -/
def run (js : Builtins) : VerificationState → List VerifyOp → Option VerificationState
  | s, [] => some s
  | s, op :: ops => if enabled s op then run js (apply js s op) ops else none

/-- Whether the operation is a tick that fires while a call is outstanding. -/
def overlaps (s : VerificationState) : VerifyOp → Bool
  | .tick _ _ => !s.inFlight.isEmpty
  | _ => false

/-- Like `run`, for the schedules in which every call completes before the next
tick: `none` also when a tick fires while a call is outstanding. -/
def runSerial (js : Builtins) : VerificationState → List VerifyOp → Option VerificationState
  | s, [] => some s
  | s, op :: ops =>
    if enabled s op && !overlaps s op then runSerial js (apply js s op) ops else none

/-- The `Date.now()` readings of the ticks of a sequence of operations. -/
def tickReadings : List VerifyOp → List ℕ
  | [] => []
  | .tick now _ :: ops => now :: tickReadings ops
  | _ :: ops => tickReadings ops

end VerifyOp

/-! ## Example runs of the verification loop -/

/-- The key events of typing the letter `key` from clock reading `t`: its
keydown at `t` and its keyup at `t + 1`. -/
def stroke (key : String) (t : ℚ) : List VerifyOp :=
  [VerifyOp.key { type := .keydown, key := key, isRepeat := false } t,
   VerifyOp.key { type := .keyup, key := key, isRepeat := false } (t + 1)]

/-- A mounted loop with the persisted identity `user_42`. -/
def mounted : VerificationState :=
  VerificationState.init (some "user_42") "12:00:00"

/-- The mounted loop with `k` keyups buffered. -/
def buffered (k : Nat) : VerificationState :=
  { mounted with
    collector := mounted.collector.handleAll
      ((List.range k).map
        (fun i => (({ type := .keyup, key := "a", isRepeat := false } : KeyboardEvent), (i : ℚ)))) }

/-- Two strokes, a tick whose call is answered with a key, two more strokes and
a tick: the state in which the second call is outstanding with the session
unlocked. -/
def unlockedOps : List VerifyOp :=
  stroke "a" 10 ++ stroke "b" 20 ++ [VerifyOp.tick 4000 "12:00:04"]
    ++ [VerifyOp.resolved 0 { authenticated := true, confidence := 9 / 10, key := some "k3y" }
          "12:00:05"]
    ++ stroke "c" 30 ++ stroke "d" 40 ++ [VerifyOp.tick 8000 "12:00:08"]

/-- Two strokes and a tick, then two more strokes and the next tick, with no
answer to the first call in between. -/
def overlapOps : List VerifyOp :=
  stroke "a" 10 ++ stroke "b" 20 ++ [VerifyOp.tick 4000 "12:00:04"]
    ++ stroke "c" 30 ++ stroke "d" 40 ++ [VerifyOp.tick 8000 "12:00:08"]

/-- The same with the first call answered before the second tick. -/
def serialOps : List VerifyOp :=
  stroke "a" 10 ++ stroke "b" 20 ++ [VerifyOp.tick 4000 "12:00:04"]
    ++ [VerifyOp.failed 0 none "12:00:05"]
    ++ stroke "c" 30 ++ stroke "d" 40 ++ [VerifyOp.tick 8000 "12:00:08"]

/-- Two ticks that both send, the wall clock having been set back between them:
`Date.now()` reads 8000 at the first and 2000 at the second. -/
def clockSetBackOps : List VerifyOp :=
  stroke "a" 10 ++ stroke "b" 20 ++ [VerifyOp.tick 8000 "12:00:08"]
    ++ stroke "c" 30 ++ stroke "d" 40 ++ [VerifyOp.tick 2000 "12:00:02"]

/-- A `/verify` answer that authenticates. -/
def goodAnswer : VerifyResponse :=
  { authenticated := true, confidence := 9 / 10, key := some "k3y" }

/-- A `/verify` answer that does not. -/
def lowAnswer : VerifyResponse :=
  { authenticated := false, confidence := 1 / 5, key := none }

/-- A mounted loop with nothing persisted and three keyups buffered. -/
def anonymous : VerificationState :=
  { buffered 3 with user_id := none }

/-- Two strokes and a tick that sends, then the cleanup of the effect while the
call is outstanding. -/
def cancelledOps : List VerifyOp :=
  stroke "a" 10 ++ stroke "b" 20 ++ [VerifyOp.tick 4000 "12:00:04", VerifyOp.cleanup]

/-- The same, and the outstanding call is answered after the cleanup. -/
def lateAnswerOps : List VerifyOp :=
  cancelledOps ++ [VerifyOp.resolved 0 goodAnswer "12:00:05"]

/-- The mounted loop after two strokes and a tick that sends: one call is
outstanding. -/
def awaiting : VerificationState :=
  (stroke "a" 10 ++ stroke "b" 20 ++ [VerifyOp.tick 4000 "12:00:04"]).foldl
    (VerifyOp.apply asciiBuiltins) mounted

/-- A stroke of the letter `a`, as the collector receives it. -/
def strokeA : List (KeyboardEvent × ℚ) :=
  [(({ type := .keydown, key := "a", isRepeat := false } : KeyboardEvent), 1),
   (({ type := .keyup, key := "a", isRepeat := false } : KeyboardEvent), 2)]

/-! ## Calls, logs and payloads of whole runs -/

/-- A call of a method of the collector from outside, or a key event handed to
its handlers. -/
inductive CollectorCall
  | start
  | stop
  | reset
  | getEvents
  | key (e : KeyboardEvent) (now : ℚ)
  deriving DecidableEq, Repr

/-- The fields of the collector after a call and the value the call returns
(`none` where the method returns nothing); `getEvents` assigns no field. -/
def BiometricCollector.call (c : BiometricCollector) :
    CollectorCall → BiometricCollector × Option (List BiometricEvent)
  | .start => (c.start, none)
  | .stop => (c.stop.1, some c.stop.2)
  | .reset => (c.reset, none)
  | .getEvents => (c, some c.getEvents)
  | .key e now => (c.handle (e, now), none)

/-- Calling `addLog` once for each entry of `es`, first to last. -/
def addLogs (s : VerificationState) (es : List LogEntry) : VerificationState :=
  es.foldl (fun st e => addLog st e.time e.text e.type) s

/-- The events of a list of `/verify` bodies, in the order sent. -/
def payloadEvents : List VerifyPayload → List BiometricEvent
  | [] => []
  | p :: ps => p.events ++ payloadEvents ps

/-- The key events of a sequence of operations, in order. -/
def keyEvents : List VerifyOp → List (KeyboardEvent × ℚ)
  | [] => []
  | .key e now :: ops => (e, now) :: keyEvents ops
  | _ :: ops => keyEvents ops

/-- An attempt at the phrase that is accepted and whose acknowledgment timer
fires before the next attempt, `k` times over. -/
def acceptAndAcknowledge (phrase : String) : Nat → List EnrollOp
  | 0 => []
  | k + 1 =>
    [EnrollOp.typeText phrase, EnrollOp.submitSample, EnrollOp.timer 0]
      ++ acceptAndAcknowledge phrase k

/-- Focus, four accepted samples, an attempt that does not match (which sets
the 3000 ms timer) and, before that timer fires, the fifth accepted sample. -/
def staleTimerOps : List EnrollOp :=
  [EnrollOp.focus] ++ acceptAndAcknowledge (phraseAt 0) 4
    ++ [EnrollOp.typeText "the quick brown fo", EnrollOp.submitSample,
        EnrollOp.typeText (phraseAt 0), EnrollOp.submitSample]

/-- Three strokes with a tick that sends after the second, in a mounted loop:
four events go out, two stay buffered. -/
def twoBatchOps : List VerifyOp :=
  stroke "a" 10 ++ stroke "b" 20 ++ [VerifyOp.tick 4000 "12:00:04"] ++ stroke "c" 30

/-- Lower-casing of a list of characters as JavaScript does it on ASCII letters
and on the capital I with a dot, U+0130 (304), which becomes the two characters
`i` and the combining dot U+0307 (775); every other character is kept. -/
def lowerChars : List Char → List Char
  | [] => []
  | c :: cs =>
    (if c = Char.ofNat 304 then ['i', Char.ofNat 775] else [c.toLower]) ++ lowerChars cs

/-- An executable instance of the built-ins, equal to the JavaScript ones on
text made of ASCII characters, U+0130 and U+0307. -/
def dottedBuiltins : Builtins :=
  { asciiBuiltins with toLowerCase := fun t => String.mk (lowerChars t.data) }

/-- The one-character text made of the capital I with a dot, U+0130. -/
def dottedCapital : String :=
  String.mk [Char.ofNat 304]

/-- The two-character text made of `i` and the combining dot U+0307. -/
def dottedSmall : String :=
  String.mk ['i', Char.ofNat 775]

/-! ## The collector -/

theorem handle_armed (c : BiometricCollector) (en : KeyboardEvent × ℚ) (h : c.active = true) :
    c.handle en = { c with events := c.events ++ acceptedEntries [en] } := by
  obtain ⟨⟨ty, k, rep⟩, now⟩ := en
  obtain ⟨evs, act, lis⟩ := c
  simp only at h
  subst h
  cases ty <;> cases rep <;>
    simp [BiometricCollector.handle, BiometricCollector.handleKeyDown,
      BiometricCollector.handleKeyUp, acceptedEntries, accepted, entryOf]

theorem acceptedEntries_cons (en : KeyboardEvent × ℚ) (es : List (KeyboardEvent × ℚ)) :
    acceptedEntries (en :: es) = acceptedEntries [en] ++ acceptedEntries es := by
  simp only [acceptedEntries, List.filter_cons, List.filter_nil]
  split <;> simp

theorem handleAll_armed (c : BiometricCollector) (es : List (KeyboardEvent × ℚ))
    (h : c.active = true) :
    c.handleAll es = { c with events := c.events ++ acceptedEntries es } := by
  induction es generalizing c with
  | nil => simp [BiometricCollector.handleAll, acceptedEntries]
  | cons en es ih =>
    have h1 : (c.handle en).active = true := by rw [handle_armed c en h]; exact h
    have step : c.handleAll (en :: es) = (c.handle en).handleAll es := rfl
    rw [step, ih _ h1, handle_armed c en h, acceptedEntries_cons en es]
    simp [List.append_assoc]

theorem acceptedEntries_heldKey (down : String × ℚ) (repeats : List (String × ℚ))
    (up : String × ℚ) :
    acceptedEntries (heldKey down repeats up)
      = [{ key := down.1, type := .keydown, timestamp := down.2 },
         { key := up.1, type := .keyup, timestamp := up.2 }] := by
  have hrep : List.filter accepted
      (repeats.map (fun k =>
        (({ type := .keydown, key := k.1, isRepeat := true } : KeyboardEvent), k.2))) = [] := by
    induction repeats with
    | nil => rfl
    | cons k ks ih => simpa [List.filter_cons, accepted] using ih
  simp [acceptedEntries, heldKey, List.filter_append, hrep, List.filter_cons, accepted, entryOf]

/-- C1: the test of `handleSubmitSample` reports a match exactly when the typed
text and the target phrase are equal after lower-casing both, and a mismatch
otherwise; the handler takes its mismatch branch (status `error`) exactly on a
mismatch.  With target "the quick brown fox", "The Quick Brown Fox" is a match
and "the quick brown fo" is a mismatch. -/
theorem validator_match_iff_lowercase_equal (js : Builtins) (t p : String)
    (s : EnrollmentState) :
    (mismatch js t p = false ↔ js.toLowerCase t = js.toLowerCase p)
    ∧ (mismatch js t p = true ↔ js.toLowerCase t ≠ js.toLowerCase p)
    ∧ ((handleSubmitSample js { s with currentInput := t, targetText := p }).status = .error
        ↔ js.toLowerCase t ≠ js.toLowerCase p)
    ∧ mismatch asciiBuiltins "The Quick Brown Fox" "the quick brown fox" = false
    ∧ mismatch asciiBuiltins "the quick brown fo" "the quick brown fox" = true := by
  refine ⟨by simp [mismatch], by simp [mismatch], ?_, by decide, by decide⟩
  by_cases h : js.toLowerCase t = js.toLowerCase p
  · simp only [handleSubmitSample, mismatch, h, bne_self_eq_false, Bool.false_eq_true,
      if_false, ne_eq, not_true_eq_false, iff_false]
    split <;> simp
  · simp [handleSubmitSample, mismatch, h]

/-- C2: for an armed collector, handling a finite sequence of key events leaves
the buffer it had followed by one entry `{key, type, timestamp}` for each keyup
and each keydown that is not a repeat, in the order handled, and repeats add
nothing; the collector stays armed.  Starting from an empty armed buffer, a
keydown, any number of repeat keydowns and a keyup leave exactly 2 entries. -/
theorem armed_buffer_appends_accepted (c : BiometricCollector)
    (es : List (KeyboardEvent × ℚ)) (h : c.active = true) :
    (c.handleAll es).events = c.events ++ acceptedEntries es
    ∧ acceptedEntries es = (es.filter accepted).map entryOf
    ∧ (∀ en, accepted en = true ↔
        (en.1.type = .keyup ∨ (en.1.type = .keydown ∧ en.1.isRepeat = false)))
    ∧ (c.handleAll es).active = true
    ∧ (∀ down repeats up,
        ((BiometricCollector.new.start.handleAll (heldKey down repeats up)).events
          = [{ key := down.1, type := .keydown, timestamp := down.2 },
             { key := up.1, type := .keyup, timestamp := up.2 }])
        ∧ (BiometricCollector.new.start.handleAll (heldKey down repeats up)).events.length = 2) := by
  refine ⟨by rw [handleAll_armed c es h], rfl, ?_, by rw [handleAll_armed c es h]; exact h, ?_⟩
  · rintro ⟨⟨ty, k, rep⟩, now⟩
    cases ty <;> cases rep <;> simp [accepted]
  · intro down repeats up
    have hs : (BiometricCollector.new.start).active = true := rfl
    rw [handleAll_armed _ _ hs, acceptedEntries_heldKey]
    exact ⟨rfl, rfl⟩

/-- C2, at a concrete input: an armed collector holding one entry handles a
keydown, a repeat keydown and a keyup. -/
theorem armed_buffer_appends_accepted_witness :
    (({ events := [{ key := "a", type := .keyup, timestamp := 1 }], active := true,
        listening := true } : BiometricCollector).handleAll
      [(⟨.keydown, "b", false⟩, 2), (⟨.keydown, "b", true⟩, 3), (⟨.keyup, "b", false⟩, 4)]).events
      = [{ key := "a", type := .keyup, timestamp := 1 }]
        ++ acceptedEntries
          [(⟨.keydown, "b", false⟩, 2), (⟨.keydown, "b", true⟩, 3), (⟨.keyup, "b", false⟩, 4)] :=
  (armed_buffer_appends_accepted
    { events := [{ key := "a", type := .keyup, timestamp := 1 }], active := true,
      listening := true }
    [(⟨.keydown, "b", false⟩, 2), (⟨.keydown, "b", true⟩, 3), (⟨.keyup, "b", false⟩, 4)]
    rfl).1

/-- C3: after `start`, handling the events `A`, `reset` and handling the events
`B`, the collector is still armed and `getEvents` returns exactly the entries
for the keyups and the keydowns without repeat of `B`, in order: no entry of
`A` is left. -/
theorem reset_between_samples (c : BiometricCollector) (A B : List (KeyboardEvent × ℚ)) :
    (((c.start.handleAll A).reset).handleAll B).active = true
    ∧ (((c.start.handleAll A).reset).handleAll B).getEvents = acceptedEntries B := by
  have hs : c.start.active = true := rfl
  have hA : ((c.start.handleAll A).reset).active = true := by
    rw [handleAll_armed _ A hs]; rfl
  rw [handleAll_armed _ B hA, handleAll_armed _ A hs]
  exact ⟨rfl, by simp [BiometricCollector.getEvents, BiometricCollector.reset]⟩

/-! ## The enrollment session -/

theorem sentOk_init (r : Fin 7) : SentOk (EnrollmentState.init r) := by
  constructor
  · intro h; cases h
  · intro p hp; cases hp

theorem sentOk_apply (js : Builtins) (s : EnrollmentState) (op : EnrollOp)
    (hen : enabled s op = true) (h : SentOk s) : SentOk (apply js s op) := by
  obtain ⟨h1, h2⟩ := h
  cases op with
  | focus => exact ⟨h1, h2⟩
  | key e now => exact ⟨h1, h2⟩
  | typeText v => exact ⟨h1, h2⟩
  | submitSample =>
    simp only [apply, handleSubmitSample]
    split
    · exact ⟨(fun h => nomatch h), h2⟩
    · split
      · rename_i hlen
        exact ⟨fun _ => hlen, h2⟩
      · exact ⟨(fun h => nomatch h), h2⟩
  | changePhrase answer r =>
    simp only [apply, handleChangePhrase]
    split
    · split
      · exact ⟨h1, h2⟩
      · exact ⟨(fun h => nomatch h), h2⟩
    · exact ⟨(fun h => nomatch h), h2⟩
  | finish n =>
    have hst : s.status = .ready_to_submit := by simpa [enabled] using hen
    refine ⟨(fun h => nomatch h), ?_⟩
    intro p hp
    simp only [apply, finishEnrollment, List.mem_append, List.mem_singleton] at hp
    rcases hp with hp | hp
    · exact h2 p hp
    · subst hp; exact h1 hst
  | resolved i key =>
    simp only [apply]
    split
    · exact ⟨(fun h => nomatch h), h2⟩
    · exact ⟨h1, h2⟩
  | rejected i => exact ⟨(fun h => nomatch h), h2⟩
  | timer i => exact ⟨(fun h => nomatch h), h2⟩

theorem sentOk_runOps (js : Builtins) (ops : List EnrollOp) (s t : EnrollmentState)
    (hrun : runOps js s ops = some t) (h : SentOk s) : SentOk t := by
  induction ops generalizing s with
  | nil =>
    simp only [runOps, Option.some.injEq] at hrun
    subst hrun; exact h
  | cons op ops ih =>
    simp only [runOps] at hrun
    split at hrun
    · rename_i hen
      exact ih _ hrun (sentOk_apply js s op hen h)
    · cases hrun

theorem mismatch_self (js : Builtins) (p : String) : mismatch js p p = false := by
  simp [mismatch]

/-- C4 (the code at the failing input): whatever the lower-casing, focus, five
accepted samples, a failed `/enroll` call and one more accepted attempt lead
to a state with 6 samples, more than `REQUIRED_SAMPLES`, in which
`Complete Enrollment` is offered again. -/
theorem sample_count_exceeds_required (js : Builtins) :
    ∃ s, Reachable js s ∧ s.samples.length = 6
      ∧ ¬ s.samples.length ≤ REQUIRED_SAMPLES ∧ s.status = .ready_to_submit := by
  have hp : (phraseAt 0).length ≠ 0 := by decide
  have hlen : (sixthSampleOps.foldl (apply js) (EnrollmentState.init 0)).samples.length = 6 := by
    simp [sixthSampleOps, typeAndSubmit, apply, handleFocus, handleChange,
      handleSubmitSample, mismatch_self, EnrollmentState.init, finishEnrollment,
      enrollRejected, REQUIRED_SAMPLES, BiometricCollector.getEvents]
  refine ⟨sixthSampleOps.foldl (apply js) (EnrollmentState.init 0), ⟨0, sixthSampleOps, ?_⟩,
    hlen, ?_, ?_⟩
  · simp [sixthSampleOps, typeAndSubmit, runOps, enabled, apply, handleFocus, handleChange,
      handleSubmitSample, mismatch_self, inputDisabled, EnrollmentState.init, finishEnrollment,
      enrollRejected, REQUIRED_SAMPLES, hp, BiometricCollector.getEvents]
  · rw [hlen]
    decide
  · simp [sixthSampleOps, typeAndSubmit, apply, handleFocus, handleChange,
      handleSubmitSample, mismatch_self, EnrollmentState.init, finishEnrollment,
      enrollRejected, REQUIRED_SAMPLES, BiometricCollector.getEvents]

/-- C5: in every reachable state every `/enroll` body sent so far holds at
least `REQUIRED_SAMPLES` samples; `finishEnrollment` can be invoked exactly in
`ready_to_submit`, where the sample list has at least `REQUIRED_SAMPLES`
elements, and the body it sends carries exactly that list. -/
theorem enroll_never_sent_with_fewer_samples (js : Builtins) (s : EnrollmentState)
    (h : Reachable js s) :
    (∀ p ∈ s.sent, REQUIRED_SAMPLES ≤ p.samples.length)
    ∧ (s.status = .ready_to_submit → REQUIRED_SAMPLES ≤ s.samples.length)
    ∧ (∀ n, enabled s (.finish n) = true ↔ s.status = .ready_to_submit)
    ∧ (∀ n, (apply js s (.finish n)).sent
        = s.sent ++ [{ user_id := "user_" ++ toString n.val, samples := s.samples }])
    ∧ (∀ op, enabled s op = true → (∀ n, op ≠ .finish n) → (apply js s op).sent = s.sent) := by
  obtain ⟨r, ops, hrun⟩ := h
  have hok := sentOk_runOps js ops _ s hrun (sentOk_init r)
  refine ⟨hok.2, hok.1, fun n => by simp [enabled], fun n => rfl, ?_⟩
  intro op _ hne
  cases op with
  | finish n => exact absurd rfl (hne n)
  | submitSample =>
    simp only [apply, handleSubmitSample]
    split
    · rfl
    · split <;> rfl
  | changePhrase answer r =>
    simp only [apply, handleChangePhrase]
    split
    · split <;> rfl
    · rfl
  | resolved i key =>
    simp only [apply]
    split <;> rfl
  | focus => rfl
  | key e now => rfl
  | typeText v => rfl
  | rejected i => rfl
  | timer i => rfl

/-- C5, at a concrete input: the state after five accepted samples and
`Complete Enrollment`. -/
theorem enroll_never_sent_with_fewer_samples_witness :
    Reachable asciiBuiltins
        (fiveThenFinish.foldl (apply asciiBuiltins) (EnrollmentState.init 0))
    ∧ ∀ p ∈ (fiveThenFinish.foldl (apply asciiBuiltins) (EnrollmentState.init 0)).sent,
        REQUIRED_SAMPLES ≤ p.samples.length :=
  ⟨⟨0, fiveThenFinish, by decide⟩,
    (enroll_never_sent_with_fewer_samples asciiBuiltins _ ⟨0, fiveThenFinish, by decide⟩).1⟩

/-- C10: `handleChangePhrase` calls `window.confirm` exactly when the sample
list is not empty (never with zero samples, always with one or more), and
when the confirmation is declined the whole state (samples, target phrase,
current input, status, collector buffer) is as before the call. -/
theorem change_phrase_confirmation (s : EnrollmentState) (answer : Bool) (r : Fin 7) :
    ((handleChangePhrase s answer r).2 = true ↔ s.samples ≠ [])
    ∧ ((handleChangePhrase s answer r).2 = true ↔ 1 ≤ s.samples.length)
    ∧ ((handleChangePhrase s answer r).2 = false ↔ s.samples.length = 0)
    ∧ ((handleChangePhrase s false r).2 = true → (handleChangePhrase s false r).1 = s) := by
  have hlen : s.samples.length > 0 ↔ s.samples ≠ [] := List.length_pos
  by_cases h : s.samples.length > 0
  · have hne := hlen.1 h
    have h0 : s.samples.length ≠ 0 := Nat.pos_iff_ne_zero.1 h
    cases answer <;> simp [handleChangePhrase, h, hne, h0] <;> omega
  · have hnil : s.samples = [] := by
      by_contra hne
      exact h (hlen.2 hne)
    simp [handleChangePhrase, hnil]

/-- C10, at a concrete input: declining the confirmation with one sample
collected. -/
theorem change_phrase_confirmation_witness :
    (handleChangePhrase oneSampleState false 3).2 = true
    ∧ (handleChangePhrase oneSampleState false 3).1 = oneSampleState :=
  ⟨by decide, (change_phrase_confirmation oneSampleState false 3).2.2.2 (by decide)⟩

/-! ## The verification loop -/

theorem addLog_sent (s : VerificationState) (time text : String) (ty : LogType) :
    (addLog s time text ty).sent = s.sent ∧ (addLog s time text ty).inFlight = s.inFlight :=
  ⟨rfl, rfl⟩

theorem verifyFailed_sent (s : VerificationState) (i : Nat) (status : Option Nat)
    (time : String) :
    (verifyFailed s i status time).sent = s.sent
    ∧ (verifyFailed s i status time).inFlight = s.inFlight.eraseIdx i := by
  unfold verifyFailed
  split <;> exact ⟨rfl, rfl⟩

theorem verifyResolved_sent (js : Builtins) (s : VerificationState) (i : Nat)
    (res : VerifyResponse) (time : String) :
    (verifyResolved js s i res time).sent = s.sent
    ∧ (verifyResolved js s i res time).inFlight = s.inFlight.eraseIdx i := by
  unfold verifyResolved
  split
  · split
    · exact ⟨rfl, rfl⟩
    · exact verifyFailed_sent _ i none time
  · exact ⟨rfl, rfl⟩

theorem settle_frame (s next : VerificationState) :
    (settle s next).inFlight = next.inFlight
    ∧ (next.sent = s.sent → (settle s next).sent = s.sent)
    ∧ (next.collector = s.collector → (settle s next).collector = s.collector)
    ∧ (next.running = s.running → (settle s next).running = s.running) := by
  unfold settle
  split
  · exact ⟨rfl, id, id, id⟩
  · exact ⟨rfl, fun _ => rfl, fun _ => rfl, fun _ => rfl⟩

/-- A tick sends nothing, or sends one body whose `request_ts` is the reading
of the tick divided by 1000. -/
theorem tick_sent (s : VerificationState) (now : ℕ) (time : String) :
    ((tick s now time).sent = s.sent ∧ (tick s now time).inFlight = s.inFlight)
    ∨ ∃ p : VerifyPayload, p.request_ts = requestTs now
        ∧ (tick s now time).sent = s.sent ++ [p]
        ∧ (tick s now time).inFlight = s.inFlight ++ [p] := by
  by_cases h3 : s.collector.events.length < 3
  · exact Or.inl (by simp [tick, BiometricCollector.getEvents, h3])
  · cases hu : s.user_id with
    | none => exact Or.inl (by simp [tick, BiometricCollector.getEvents, h3, hu, addLog])
    | some u =>
      by_cases he : u = ""
      · exact Or.inl (by simp [tick, BiometricCollector.getEvents, h3, hu, he, addLog])
      · exact Or.inr ⟨{ user_id := u, events := s.collector.events,
                        request_ts := requestTs now }, rfl,
          by simp [tick, BiometricCollector.getEvents, h3, hu, he]⟩

theorem requestTs_lt {m n : ℕ} (h : m < n) : requestTs m < requestTs n := by
  unfold requestTs
  have hc : (m : ℚ) < (n : ℚ) := by exact_mod_cast h
  exact div_lt_div_of_pos_right hc (by norm_num)

theorem runSerial_inFlight (js : Builtins) (ops : List VerifyOp) (s t : VerificationState)
    (hrun : VerifyOp.runSerial js s ops = some t) (h : s.inFlight.length ≤ 1) :
    t.inFlight.length ≤ 1 ∧ VerifyOp.run js s ops = some t := by
  induction ops generalizing s with
  | nil =>
    simp only [VerifyOp.runSerial, Option.some.injEq] at hrun
    subst hrun
    exact ⟨h, rfl⟩
  | cons op ops ih =>
    simp only [VerifyOp.runSerial] at hrun
    split at hrun
    · rename_i hen
      simp only [Bool.and_eq_true, Bool.not_eq_true'] at hen
      obtain ⟨hen, hov⟩ := hen
      have hnext : (VerifyOp.apply js s op).inFlight.length ≤ 1 := by
        cases op with
        | key e now => exact h
        | typeText v => exact h
        | cleanup => exact h
        | tick now time =>
          have hempty : s.inFlight = [] := by
            simpa [VerifyOp.overlaps, List.isEmpty_iff] using hov
          rcases tick_sent s now time with ⟨_, h2⟩ | ⟨p, _, _, h2⟩
          · simp only [VerifyOp.apply, h2]; exact h
          · simp only [VerifyOp.apply, h2, hempty]; simp
        | resolved i res time =>
          simp only [VerifyOp.apply, (settle_frame s _).1,
            (verifyResolved_sent js s i res time).2]
          exact le_trans (List.length_eraseIdx_le _ _) h
        | failed i status time =>
          simp only [VerifyOp.apply, (settle_frame s _).1,
            (verifyFailed_sent s i status time).2]
          exact le_trans (List.length_eraseIdx_le _ _) h
      obtain ⟨h1, h2⟩ := ih _ hrun hnext
      refine ⟨h1, ?_⟩
      simp only [VerifyOp.run, hen, if_true]
      exact h2
    · cases hrun

theorem run_request_ts (js : Builtins) (ops : List VerifyOp) (s t : VerificationState)
    (hrun : VerifyOp.run js s ops = some t)
    (hsent : (s.sent.map (fun p => p.request_ts)).Pairwise (fun a b => a < b))
    (hlater : ∀ p ∈ s.sent, ∀ n ∈ VerifyOp.tickReadings ops, p.request_ts < requestTs n)
    (hclock : (VerifyOp.tickReadings ops).Pairwise (fun a b => a < b)) :
    (t.sent.map (fun p => p.request_ts)).Pairwise (fun a b => a < b) := by
  induction ops generalizing s with
  | nil =>
    simp only [VerifyOp.run, Option.some.injEq] at hrun
    subst hrun
    exact hsent
  | cons op ops ih =>
    simp only [VerifyOp.run] at hrun
    split at hrun
    · cases op with
      | tick now time =>
        simp only [VerifyOp.tickReadings, List.pairwise_cons] at hclock
        obtain ⟨hnow, hrest⟩ := hclock
        have hold : ∀ p ∈ s.sent, ∀ n ∈ VerifyOp.tickReadings ops,
            p.request_ts < requestTs n := fun p hp n hn =>
          hlater p hp n (by simp [VerifyOp.tickReadings, hn])
        rcases tick_sent s now time with ⟨h1, _⟩ | ⟨p, hp, h1, _⟩
        · refine ih _ hrun ?_ ?_ hrest
          · simp only [VerifyOp.apply, h1]; exact hsent
          · simp only [VerifyOp.apply, h1]; exact hold
        · refine ih _ hrun ?_ ?_ hrest
          · simp only [VerifyOp.apply, h1, List.map_append, List.map_cons, List.map_nil]
            rw [List.pairwise_append]
            refine ⟨hsent, List.pairwise_singleton _ _, ?_⟩
            intro a ha b hb
            simp only [List.mem_singleton] at hb
            subst hb
            obtain ⟨q, hq, rfl⟩ := List.mem_map.1 ha
            rw [hp]
            exact hlater q hq now (by simp [VerifyOp.tickReadings])
          · intro q hq n hn
            simp only [VerifyOp.apply, h1, List.mem_append, List.mem_singleton] at hq
            rcases hq with hq | hq
            · exact hold q hq n hn
            · subst hq
              rw [hp]
              exact requestTs_lt (hnow n hn)
      | key e now => exact ih _ hrun hsent hlater hclock
      | typeText v => exact ih _ hrun hsent hlater hclock
      | cleanup => exact ih _ hrun hsent hlater hclock
      | resolved i res time =>
        have h1 := (settle_frame s _).2.1 (verifyResolved_sent js s i res time).1
        refine ih _ hrun ?_ ?_ hclock
        · simp only [VerifyOp.apply, h1]; exact hsent
        · simp only [VerifyOp.apply, h1]; exact hlater
      | failed i status time =>
        have h1 := (settle_frame s _).2.1 (verifyFailed_sent s i status time).1
        refine ih _ hrun ?_ ?_ hclock
        · simp only [VerifyOp.apply, h1]; exact hsent
        · simp only [VerifyOp.apply, h1]; exact hlater
    · cases hrun

/-- C6: a tick that finds fewer than 3 buffered events changes nothing (no
call, and buffer, confidence, session key and log as before); a tick that
finds 3 or more with a persisted (non-empty) user id sends exactly one
`/verify` body, whose events are the buffered events in capture order, and
empties the buffer. -/
theorem tick_respects_threshold (s : VerificationState) (now : ℕ) (time u : String) :
    (s.collector.getEvents.length < 3 → tick s now time = s)
    ∧ (3 ≤ s.collector.getEvents.length → s.user_id = some u → u ≠ "" →
        (tick s now time).sent
            = s.sent ++ [{ user_id := u, events := s.collector.events,
                           request_ts := requestTs now }]
        ∧ (tick s now time).inFlight
            = s.inFlight ++ [{ user_id := u, events := s.collector.events,
                               request_ts := requestTs now }]
        ∧ (tick s now time).collector.events = []) := by
  constructor
  · intro h
    simp [tick, h]
  · intro h hu hne
    have h3 : ¬ s.collector.events.length < 3 := Nat.not_lt.2 h
    simp [tick, h3, hu, hne, BiometricCollector.getEvents, BiometricCollector.reset]

/-- C6, at concrete inputs: 2 buffered events give no call, 3 give one. -/
theorem tick_respects_threshold_witness :
    tick (buffered 2) 4000 "12:00:04" = buffered 2
    ∧ (tick (buffered 3) 4000 "12:00:04").sent
        = (buffered 3).sent ++ [{ user_id := "user_42", events := (buffered 3).collector.events,
                                  request_ts := requestTs 4000 }] :=
  ⟨(tick_respects_threshold (buffered 2) 4000 "12:00:04" "user_42").1 (by decide),
   ((tick_respects_threshold (buffered 3) 4000 "12:00:04" "user_42").2
      (by decide) rfl (by decide)).1⟩

/-- C7 as stated fails: with the session unlocked by an earlier answer, a
`/verify` call rejected with status 401 leaves the key in place. -/
theorem replay_rejection_keeps_key :
    ∃ s, VerifyOp.run asciiBuiltins mounted unlockedOps = some s
      ∧ s.unlockedKey = some "k3y"
      ∧ (verifyFailed s 0 (some 401) "12:00:09").unlockedKey = some "k3y"
      ∧ (verifyFailed s 0 (some 401) "12:00:09").unlockedKey ≠ none :=
  ⟨unlockedOps.foldl (VerifyOp.apply asciiBuiltins) mounted, rfl, by decide, by decide,
    by decide⟩

/-- C7 as amended: a `/verify` call rejected with status 401 leaves the session
key, the confidence, the typing status and the secret data as they were; it
puts the error entry "Security Alert: Replay Detected!" at the head of the
log, kept to 10 entries. -/
theorem replay_rejection_only_logs (s : VerificationState) (i : Nat) (time : String) :
    (verifyFailed s i (some 401) time).unlockedKey = s.unlockedKey
    ∧ (verifyFailed s i (some 401) time).confidence = s.confidence
    ∧ (verifyFailed s i (some 401) time).typingStatus = s.typingStatus
    ∧ (verifyFailed s i (some 401) time).secretData = s.secretData
    ∧ (verifyFailed s i (some 401) time).logs
        = ({ time := time, text := "Security Alert: Replay Detected!", type := .error }
            :: s.logs).take 10 := by
  simp [verifyFailed, addLog]

/-- C8 as stated fails: a tick that fires while the call of the previous tick
is unanswered sends a second call, and two calls are outstanding. -/
theorem second_call_while_outstanding :
    ∃ s, VerifyOp.run asciiBuiltins mounted overlapOps = some s ∧ s.inFlight.length = 2 :=
  ⟨overlapOps.foldl (VerifyOp.apply asciiBuiltins) mounted, rfl, by decide⟩

/-- C8 as amended: in every state reached by a run in which no tick fires while
a call is outstanding, at most one `/verify` call is outstanding; such a run is
a run of the loop. -/
theorem one_call_outstanding_when_serial (js : Builtins) (stored : Option String)
    (time : String) (ops : List VerifyOp) (s : VerificationState)
    (hrun : VerifyOp.runSerial js (VerificationState.init stored time) ops = some s) :
    s.inFlight.length ≤ 1
    ∧ VerifyOp.run js (VerificationState.init stored time) ops = some s :=
  runSerial_inFlight js ops _ s hrun (by simp [VerificationState.init, addLog])

/-- C8 as amended, at a concrete input: the first call fails before the second
tick. -/
theorem one_call_outstanding_when_serial_witness :
    VerifyOp.runSerial asciiBuiltins (VerificationState.init (some "user_42") "12:00:00")
        serialOps
      = some (serialOps.foldl (VerifyOp.apply asciiBuiltins) mounted)
    ∧ (serialOps.foldl (VerifyOp.apply asciiBuiltins) mounted).inFlight.length ≤ 1 :=
  ⟨rfl, (one_call_outstanding_when_serial asciiBuiltins (some "user_42") "12:00:00"
    serialOps _ rfl).1⟩

/-- C9 as stated fails: when the wall clock is set back between two ticks that
both send, the second `request_ts` is smaller than the first. -/
theorem request_ts_decreases_when_clock_set_back :
    ∃ s, VerifyOp.run asciiBuiltins mounted clockSetBackOps = some s
      ∧ s.sent.map (fun p => p.request_ts) = [8, 2]
      ∧ ¬ (s.sent.map (fun p => p.request_ts)).Pairwise (fun a b => a < b) := by
  have hts : (clockSetBackOps.foldl (VerifyOp.apply asciiBuiltins) mounted).sent.map
      (fun p => p.request_ts) = [8, 2] := by
    have h : (clockSetBackOps.foldl (VerifyOp.apply asciiBuiltins) mounted).sent.map
        (fun p => p.request_ts) = [requestTs 8000, requestTs 2000] := rfl
    rw [h]
    norm_num [requestTs]
  exact ⟨clockSetBackOps.foldl (VerifyOp.apply asciiBuiltins) mounted, rfl, hts,
    by rw [hts]; norm_num⟩

/-- C9 as amended: in a run whose ticks read strictly increasing values of
`Date.now()`, the `request_ts` values of the `/verify` bodies, in the order
sent, are strictly increasing. -/
theorem request_ts_increasing_with_clock (js : Builtins) (stored : Option String)
    (time : String) (ops : List VerifyOp) (s : VerificationState)
    (hrun : VerifyOp.run js (VerificationState.init stored time) ops = some s)
    (hclock : (VerifyOp.tickReadings ops).Pairwise (fun a b => a < b)) :
    (s.sent.map (fun p => p.request_ts)).Pairwise (fun a b => a < b) :=
  run_request_ts js ops _ s hrun
    (by simp [VerificationState.init, addLog])
    (by simp [VerificationState.init, addLog]) hclock

/-- C9 as amended, at a concrete input: two sending ticks, at 4000 and 8000. -/
theorem request_ts_increasing_with_clock_witness :
    VerifyOp.run asciiBuiltins (VerificationState.init (some "user_42") "12:00:00") overlapOps
      = some (overlapOps.foldl (VerifyOp.apply asciiBuiltins) mounted)
    ∧ (VerifyOp.tickReadings overlapOps).Pairwise (fun a b => a < b)
    ∧ ((overlapOps.foldl (VerifyOp.apply asciiBuiltins) mounted).sent.map
        (fun p => p.request_ts)).Pairwise (fun a b => a < b) :=
  ⟨rfl, by decide,
    request_ts_increasing_with_clock asciiBuiltins (some "user_42") "12:00:00" overlapOps _
      rfl (by decide)⟩

/-! ## The enrollment session: attempts, phrase changes and the `/enroll` call -/

/-- The status becomes `ready_to_submit` only when `handleSubmitSample` accepts
an attempt, which adds a sample. -/
theorem ready_only_by_accept (js : Builtins) (s : EnrollmentState) (op : EnrollOp)
    (h : s.status ≠ .ready_to_submit)
    (hready : (apply js s op).status = .ready_to_submit) :
    op = .submitSample ∧ mismatch js s.currentInput s.targetText = false
    ∧ (apply js s op).samples = s.samples ++ [s.collector.events] := by
  cases op with
  | focus => exact absurd hready h
  | key e now => exact absurd hready h
  | typeText v => exact absurd hready h
  | submitSample =>
    refine ⟨rfl, ?_⟩
    simp only [apply, handleSubmitSample] at hready ⊢
    split at hready
    · cases hready
    · split at hready
      · rename_i hm hl
        simp only [hm, hl, if_true, Bool.false_eq_true, if_false]
        exact ⟨by simp [hm], rfl⟩
      · cases hready
  | changePhrase answer r =>
    simp only [apply, handleChangePhrase] at hready
    split at hready
    · split at hready
      · exact absurd hready h
      · cases hready
    · cases hready
  | finish n => cases hready
  | resolved i key =>
    simp only [apply] at hready
    split at hready
    · cases hready
    · exact absurd hready h
  | rejected i => cases hready
  | timer i => cases hready

/-- A run that starts outside `ready_to_submit` and ends in it contains a
submit that is accepted. -/
theorem ready_needs_accept (js : Builtins) (ops : List EnrollOp) (s t : EnrollmentState)
    (h : s.status ≠ .ready_to_submit) (hrun : runOps js s ops = some t)
    (hready : t.status = .ready_to_submit) :
    ∃ pre post u, ops = pre ++ EnrollOp.submitSample :: post
      ∧ runOps js s pre = some u
      ∧ mismatch js u.currentInput u.targetText = false
      ∧ (apply js u .submitSample).samples = u.samples ++ [u.collector.events] := by
  induction ops generalizing s with
  | nil =>
    simp only [runOps, Option.some.injEq] at hrun
    subst hrun
    exact absurd hready h
  | cons op ops ih =>
    simp only [runOps] at hrun
    split at hrun
    · rename_i hen
      by_cases h1 : (apply js s op).status = .ready_to_submit
      · obtain ⟨hop, hm, hs⟩ := ready_only_by_accept js s op h h1
        subst hop
        exact ⟨[], ops, s, rfl, rfl, hm, hs⟩
      · obtain ⟨pre, post, u, hops, hpre, hm, hs⟩ := ih _ h1 hrun
        refine ⟨op :: pre, post, u, by rw [hops]; rfl, ?_, hm, hs⟩
        simp only [runOps, hen, if_true]
        exact hpre
    · cases hrun

theorem validatedOk_apply (js : Builtins) (s : EnrollmentState) (vs : List Validation)
    (op : EnrollOp) (h : ValidatedOk js s vs) :
    ValidatedOk js (apply js s op) (validations js s vs op) := by
  obtain ⟨hlen, hall⟩ := h
  cases op with
  | focus => exact ⟨hlen, hall⟩
  | key e now => exact ⟨hlen, hall⟩
  | typeText v => exact ⟨hlen, hall⟩
  | finish n => exact ⟨hlen, hall⟩
  | rejected i => exact ⟨hlen, hall⟩
  | timer i => exact ⟨hlen, hall⟩
  | resolved i key =>
    simp only [apply, validations]
    split
    · exact ⟨hlen, hall⟩
    · exact ⟨hlen, hall⟩
  | submitSample =>
    by_cases hm : mismatch js s.currentInput s.targetText = true
    · simp only [apply, validations, handleSubmitSample, hm, if_true]
      exact ⟨hlen, hall⟩
    · have hm0 : mismatch js s.currentInput s.targetText = false := by
        simpa using hm
      have hadd : ∀ v ∈ vs ++ [({ typed := s.currentInput, target := s.targetText } : Validation)],
          v.target = s.targetText ∧ mismatch js v.typed v.target = false := by
        intro v hv
        rcases List.mem_append.1 hv with hv | hv
        · exact hall v hv
        · rw [List.mem_singleton.1 hv]
          exact ⟨rfl, hm0⟩
      simp only [apply, validations, handleSubmitSample, hm0, Bool.false_eq_true, if_false]
      split
      · exact ⟨by simp [hlen], hadd⟩
      · exact ⟨by simp [hlen], hadd⟩
  | changePhrase answer r =>
    simp only [apply, validations, handleChangePhrase]
    by_cases hs : s.samples.length > 0
    · cases answer
      · simp only [hs, if_true, Bool.not_false, decide_True, Bool.and_self]
        exact ⟨hlen, hall⟩
      · simp only [hs, if_true, Bool.not_true, Bool.and_false, Bool.false_eq_true, if_false]
        exact ⟨rfl, fun v hv => nomatch hv⟩
    · simp only [hs, if_false, decide_False, Bool.false_and, Bool.false_eq_true]
      exact ⟨rfl, fun v hv => nomatch hv⟩

theorem validatedOk_runTagged (js : Builtins) (ops : List EnrollOp) (s t : EnrollmentState)
    (vs ws : List Validation) (hrun : runTagged js s vs ops = some (t, ws))
    (h : ValidatedOk js s vs) : ValidatedOk js t ws := by
  induction ops generalizing s vs with
  | nil =>
    simp only [runTagged, Option.some.injEq, Prod.mk.injEq] at hrun
    obtain ⟨h1, h2⟩ := hrun
    subst h1 h2
    exact h
  | cons op ops ih =>
    simp only [runTagged] at hrun
    split at hrun
    · exact ih _ _ hrun (validatedOk_apply js s vs op h)
    · cases hrun

theorem runTagged_of_runOps (js : Builtins) (ops : List EnrollOp) (s t : EnrollmentState)
    (vs : List Validation) (hrun : runOps js s ops = some t) :
    ∃ ws, runTagged js s vs ops = some (t, ws) := by
  induction ops generalizing s vs with
  | nil =>
    simp only [runOps, Option.some.injEq] at hrun
    subst hrun
    exact ⟨vs, rfl⟩
  | cons op ops ih =>
    simp only [runOps] at hrun
    split at hrun
    · rename_i hen
      obtain ⟨ws, hws⟩ := ih (apply js s op) (validations js s vs op) hrun
      exact ⟨ws, by simp only [runTagged, hen, if_true]; exact hws⟩
    · cases hrun

theorem apply_keeps_storage (js : Builtins) (s : EnrollmentState) (op : EnrollOp)
    (h : ∀ i key, op ≠ .resolved i key) :
    (apply js s op).user_id = s.user_id ∧ (apply js s op).user_key = s.user_key := by
  cases op with
  | resolved i key => exact absurd rfl (h i key)
  | submitSample =>
    simp only [apply, handleSubmitSample]
    split
    · exact ⟨rfl, rfl⟩
    · split <;> exact ⟨rfl, rfl⟩
  | changePhrase answer r =>
    simp only [apply, handleChangePhrase]
    split
    · split <;> exact ⟨rfl, rfl⟩
    · exact ⟨rfl, rfl⟩
  | focus => exact ⟨rfl, rfl⟩
  | key e now => exact ⟨rfl, rfl⟩
  | typeText v => exact ⟨rfl, rfl⟩
  | finish n => exact ⟨rfl, rfl⟩
  | rejected i => exact ⟨rfl, rfl⟩
  | timer i => exact ⟨rfl, rfl⟩

/-- C11 as stated fails: after five accepted samples a failed `/enroll` call
leaves the status `error`, not `ready_to_submit`, and `Complete Enrollment` is
not offered. -/
theorem failed_enroll_not_ready :
    ∃ s, runOps asciiBuiltins (EnrollmentState.init 0) failedEnrollOps = some s
      ∧ s.samples.length = 5
      ∧ s.status = .error
      ∧ s.status ≠ .ready_to_submit
      ∧ enabled s (.finish 7) = false :=
  ⟨failedEnrollOps.foldl (apply asciiBuiltins) (EnrollmentState.init 0), by decide, by decide,
    by decide, by decide, by decide⟩

/-- C11 as amended: a failed `/enroll` call leaves the samples as they are and
sets the status to `error`, in which `finishEnrollment` cannot be invoked; every
run from there to a state in `ready_to_submit`, where it can be invoked again,
contains an attempt that `handleSubmitSample` accepts, adding a sample. -/
theorem failed_enroll_sets_error (js : Builtins) (s : EnrollmentState) (i : Nat)
    (ops : List EnrollOp) (t : EnrollmentState)
    (hrun : runOps js (enrollRejected s i) ops = some t)
    (hready : t.status = .ready_to_submit) :
    (enrollRejected s i).samples = s.samples
    ∧ (enrollRejected s i).status = .error
    ∧ (∀ n, enabled (enrollRejected s i) (.finish n) = false)
    ∧ ∃ pre post u, ops = pre ++ EnrollOp.submitSample :: post
        ∧ runOps js (enrollRejected s i) pre = some u
        ∧ mismatch js u.currentInput u.targetText = false
        ∧ (apply js u .submitSample).samples = u.samples ++ [u.collector.events] :=
  ⟨rfl, rfl, fun _ => rfl,
    ready_needs_accept js ops (enrollRejected s i) t (fun h => nomatch h) hrun hready⟩

/-- C11 as amended, at a concrete input: after the failed call the phrase is
typed and submitted again, which makes six samples. -/
theorem failed_enroll_sets_error_witness :
    runOps asciiBuiltins
        (enrollRejected (fiveThenFinish.foldl (apply asciiBuiltins) (EnrollmentState.init 0)) 0)
        retryOps
      = some (retryOps.foldl (apply asciiBuiltins)
          (enrollRejected
            (fiveThenFinish.foldl (apply asciiBuiltins) (EnrollmentState.init 0)) 0))
    ∧ (enrollRejected
        (fiveThenFinish.foldl (apply asciiBuiltins) (EnrollmentState.init 0)) 0).status = .error :=
  ⟨by decide,
    (failed_enroll_sets_error asciiBuiltins
      (fiveThenFinish.foldl (apply asciiBuiltins) (EnrollmentState.init 0)) 0 retryOps
      (retryOps.foldl (apply asciiBuiltins)
        (enrollRejected (fiveThenFinish.foldl (apply asciiBuiltins) (EnrollmentState.init 0)) 0))
      (by decide) (by decide)).2.1⟩

/-- C12: when the `/enroll` call that `finishEnrollment` sent with user id `u`
returns the key `k`, the persisted `user_id` is `u`, the persisted `user_key`
is `k` and the status is `success`; `finishEnrollment` itself, a failed call
and every other operation write neither item. -/
theorem enroll_outcome_storage (js : Builtins) (s : EnrollmentState) (n : Fin 10000)
    (i : Nat) (p : EnrollPayload) (key : String) (hp : s.pending.get? i = some p) :
    (apply js s (.resolved i key)).user_id = some p.user_id
    ∧ (apply js s (.resolved i key)).user_key = some key
    ∧ (apply js s (.resolved i key)).status = .success
    ∧ (finishEnrollment s n).pending.get? s.pending.length
        = some { user_id := "user_" ++ toString n.val, samples := s.samples }
    ∧ (apply js (finishEnrollment s n) (.resolved s.pending.length key)).user_id
        = some ("user_" ++ toString n.val)
    ∧ (apply js (finishEnrollment s n) (.resolved s.pending.length key)).user_key = some key
    ∧ (apply js (finishEnrollment s n) (.resolved s.pending.length key)).status = .success
    ∧ (∀ j, (enrollRejected s j).user_id = s.user_id
        ∧ (enrollRejected s j).user_key = s.user_key)
    ∧ (∀ op, (∀ j k, op ≠ .resolved j k) →
        (apply js s op).user_id = s.user_id ∧ (apply js s op).user_key = s.user_key) := by
  have hnew : (finishEnrollment s n).pending.get? s.pending.length
      = some { user_id := "user_" ++ toString n.val, samples := s.samples } := by
    simp [finishEnrollment]
  refine ⟨?_, ?_, ?_, hnew, ?_, ?_, ?_, fun j => ⟨rfl, rfl⟩,
    fun op h => apply_keeps_storage js s op h⟩
  · simp only [apply, hp]; rfl
  · simp only [apply, hp]; rfl
  · simp only [apply, hp]; rfl
  · simp only [apply, hnew]; rfl
  · simp only [apply, hnew]; rfl
  · simp only [apply, hnew]; rfl

/-- C12, at a concrete input: the call sent after five samples returns a key. -/
theorem enroll_outcome_storage_witness :
    (apply asciiBuiltins (fiveThenFinish.foldl (apply asciiBuiltins) (EnrollmentState.init 0))
        (.resolved 0 "k3y")).user_id = some "user_42"
    ∧ (apply asciiBuiltins (fiveThenFinish.foldl (apply asciiBuiltins) (EnrollmentState.init 0))
        (.resolved 0 "k3y")).user_key = some "k3y" :=
  have h := enroll_outcome_storage asciiBuiltins
    (fiveThenFinish.foldl (apply asciiBuiltins) (EnrollmentState.init 0)) 0 0
    { user_id := "user_42",
      samples := (fiveThenFinish.foldl (apply asciiBuiltins) (EnrollmentState.init 0)).samples }
    "k3y" (by decide)
  ⟨h.1, h.2.1⟩

/-- C13: when the typed text does not match the target phrase,
`handleSubmitSample` leaves the samples and the target phrase as they are,
empties the input, empties the collector buffer with its armed flag as before,
sets the status to `error` (put back to `idle` by the timer it sets), and sends
no `/enroll` call. -/
theorem mismatch_discards_attempt (js : Builtins) (s : EnrollmentState)
    (h : mismatch js s.currentInput s.targetText = true) :
    (handleSubmitSample js s).samples = s.samples
    ∧ (handleSubmitSample js s).targetText = s.targetText
    ∧ (handleSubmitSample js s).currentInput = ""
    ∧ (handleSubmitSample js s).collector.events = []
    ∧ (handleSubmitSample js s).collector.active = s.collector.active
    ∧ (handleSubmitSample js s).status = .error
    ∧ (handleSubmitSample js s).timers = s.timers ++ [Timer.mismatch]
    ∧ (timerFires (handleSubmitSample js s) s.timers.length).status = .idle
    ∧ (handleSubmitSample js s).sent = s.sent
    ∧ (handleSubmitSample js s).pending = s.pending := by
  simp [handleSubmitSample, h, BiometricCollector.reset, timerFires]

/-- C13, at a concrete input: "the quick brown fo" against `PHRASES[0]`. -/
theorem mismatch_discards_attempt_witness :
    (handleSubmitSample asciiBuiltins wrongTextState).samples = wrongTextState.samples
    ∧ (handleSubmitSample asciiBuiltins wrongTextState).status = .error :=
  have h := mismatch_discards_attempt asciiBuiltins wrongTextState (by decide)
  ⟨h.1, h.2.2.2.2.2.1⟩

/-- C14: when the typed text matches the target phrase, the sample list after
`handleSubmitSample` is the one before with one sample added at the end, the
events the collector holds at that moment in capture order; the earlier
samples are as before, the collector buffer is empty and the input is empty. -/
theorem match_appends_sample (js : Builtins) (s : EnrollmentState)
    (h : mismatch js s.currentInput s.targetText = false) :
    (handleSubmitSample js s).samples = s.samples ++ [s.collector.getEvents]
    ∧ s.collector.getEvents = s.collector.events
    ∧ (handleSubmitSample js s).samples.length = s.samples.length + 1
    ∧ (handleSubmitSample js s).samples.take s.samples.length = s.samples
    ∧ (handleSubmitSample js s).collector.events = []
    ∧ (handleSubmitSample js s).collector.active = s.collector.active
    ∧ (handleSubmitSample js s).currentInput = "" := by
  have hs : (handleSubmitSample js s).samples = s.samples ++ [s.collector.getEvents]
      ∧ (handleSubmitSample js s).collector.events = []
      ∧ (handleSubmitSample js s).collector.active = s.collector.active
      ∧ (handleSubmitSample js s).currentInput = "" := by
    simp only [handleSubmitSample, h, Bool.false_eq_true, if_false]
    split <;> exact ⟨rfl, rfl, rfl, rfl⟩
  obtain ⟨h1, h2, h3, h4⟩ := hs
  refine ⟨h1, rfl, ?_, ?_, h2, h3, h4⟩
  · rw [h1]; simp
  · rw [h1]; simp

/-- C14, at a concrete input: `PHRASES[0]` typed in capitals with two events
buffered. -/
theorem match_appends_sample_witness :
    (handleSubmitSample asciiBuiltins rightTextState).samples
      = rightTextState.samples ++ [rightTextState.collector.getEvents]
    ∧ (handleSubmitSample asciiBuiltins rightTextState).collector.events = [] :=
  have h := match_appends_sample asciiBuiltins rightTextState (by decide)
  ⟨h.1, h.2.2.2.2.1⟩

/-- C15: an operation that changes the target phrase leaves the sample list
empty; `handleChangePhrase`, unless declined, also empties the input and the
collector buffer and sets the status to `idle`; the first phrase is set with no
sample held.  Hence in every reachable state each sample held was accepted by a
comparison with the current target phrase. -/
theorem phrase_change_clears_samples (js : Builtins) (r : Fin 7) (ops : List EnrollOp)
    (s : EnrollmentState) (hrun : runOps js (EnrollmentState.init r) ops = some s) :
    (∀ op, (apply js s op).targetText ≠ s.targetText → (apply js s op).samples = [])
    ∧ (∀ answer r2, (s.samples = [] ∨ answer = true) →
        (handleChangePhrase s answer r2).1
          = { s with targetText := phraseAt r2, samples := [], currentInput := "",
                     status := .idle, collector := { s.collector with events := [] } })
    ∧ (EnrollmentState.init r).samples = []
    ∧ ∃ vs, runTagged js (EnrollmentState.init r) [] ops = some (s, vs)
        ∧ vs.length = s.samples.length
        ∧ ∀ v ∈ vs, v.target = s.targetText
            ∧ js.toLowerCase v.typed = js.toLowerCase v.target := by
  refine ⟨?_, ?_, rfl, ?_⟩
  · intro op hne
    cases op with
    | changePhrase answer r2 =>
      simp only [apply, handleChangePhrase] at hne ⊢
      split
      · split
        · rename_i h1 h2
          simp [h1, h2] at hne
        · rfl
      · rfl
    | submitSample =>
      exfalso
      apply hne
      simp only [apply, handleSubmitSample]
      split
      · rfl
      · split <;> rfl
    | resolved i key =>
      exfalso
      apply hne
      simp only [apply]
      split <;> rfl
    | focus => exact absurd rfl hne
    | key e now => exact absurd rfl hne
    | typeText v => exact absurd rfl hne
    | finish n => exact absurd rfl hne
    | rejected i => exact absurd rfl hne
    | timer i => exact absurd rfl hne
  · intro answer r2 h
    rcases h with h | h
    · simp [handleChangePhrase, h, BiometricCollector.reset]
    · subst h
      simp only [handleChangePhrase, BiometricCollector.reset]
      split <;> rfl
  · obtain ⟨vs, hvs⟩ := runTagged_of_runOps js ops _ s [] hrun
    have hok := validatedOk_runTagged js ops _ s [] vs hvs ⟨rfl, fun v hv => nomatch hv⟩
    refine ⟨vs, hvs, hok.1, fun v hv => ⟨(hok.2 v hv).1, ?_⟩⟩
    have hm := (hok.2 v hv).2
    simpa [mismatch] using hm

/-- C15, at a concrete input: a sample of the first phrase, a confirmed change
to the third phrase and a sample of that one. -/
theorem phrase_change_clears_samples_witness :
    ∃ vs, runTagged asciiBuiltins (EnrollmentState.init 0) [] changedPhraseOps
        = some (changedPhraseOps.foldl (apply asciiBuiltins) (EnrollmentState.init 0), vs)
      ∧ vs.length
        = (changedPhraseOps.foldl (apply asciiBuiltins) (EnrollmentState.init 0)).samples.length
      ∧ ∀ v ∈ vs, v.target
            = (changedPhraseOps.foldl (apply asciiBuiltins) (EnrollmentState.init 0)).targetText
          ∧ asciiBuiltins.toLowerCase v.typed = asciiBuiltins.toLowerCase v.target :=
  (phrase_change_clears_samples asciiBuiltins 0 changedPhraseOps
    (changedPhraseOps.foldl (apply asciiBuiltins) (EnrollmentState.init 0)) (by decide)).2.2.2

/-! ## The verification loop: answers, failures and cancellation -/

theorem verifyFailed_frame (s : VerificationState) (i : Nat) (status : Option Nat)
    (time : String) :
    (verifyFailed s i status time).running = s.running
    ∧ (verifyFailed s i status time).collector = s.collector
    ∧ (verifyFailed s i status time).confidence = s.confidence
    ∧ (verifyFailed s i status time).unlockedKey = s.unlockedKey := by
  unfold verifyFailed
  split <;> exact ⟨rfl, rfl, rfl, rfl⟩

theorem verifyResolved_frame (js : Builtins) (s : VerificationState) (i : Nat)
    (res : VerifyResponse) (time : String) :
    (verifyResolved js s i res time).running = s.running
    ∧ (verifyResolved js s i res time).collector = s.collector := by
  unfold verifyResolved
  split
  · split
    · exact ⟨rfl, rfl⟩
    · exact ⟨(verifyFailed_frame _ i none time).1, (verifyFailed_frame _ i none time).2.1⟩
  · exact ⟨rfl, rfl⟩

theorem verifyFailed_cleanup (s : VerificationState) (i : Nat) (status : Option Nat)
    (time : String) :
    verifyFailed (cleanup s) i status time = cleanup (verifyFailed s i status time) := by
  unfold verifyFailed
  split <;> rfl

theorem verifyResolved_cleanup (js : Builtins) (s : VerificationState) (i : Nat)
    (res : VerifyResponse) (time : String) :
    verifyResolved js (cleanup s) i res time = cleanup (verifyResolved js s i res time) := by
  obtain ⟨auth, conf, key⟩ := res
  cases auth
  · rfl
  · cases key with
    | none =>
      exact verifyFailed_cleanup
        { s with confidence := conf, unlockedKey := none, typingStatus := "VERIFIED" } i none time
    | some k => rfl

theorem verify_success_confidence (js : Builtins) (s : VerificationState) (i : Nat)
    (res : VerifyResponse) (time : String) :
    (verifyResolved js s i res time).confidence = res.confidence := by
  unfold verifyResolved
  split
  · split
    · rfl
    · exact (verifyFailed_frame _ i none time).2.2.1
  · rfl

theorem settle_unmounted (s next : VerificationState) (h : s.running = false) :
    settle s next = { s with inFlight := next.inFlight } := by
  simp [settle, h]

/-- Once the component is unmounted, with the interval cleared and the
listeners removed, no operation sets the interval again, sends a call, touches
the collector or changes a cell of the component. -/
theorem run_stopped (js : Builtins) (ops : List VerifyOp) (s t : VerificationState)
    (hr : s.running = false) (hl : s.collector.listening = false)
    (hrun : VerifyOp.run js s ops = some t) :
    t.running = false ∧ t.sent = s.sent ∧ t.collector = s.collector
    ∧ t.confidence = s.confidence ∧ t.unlockedKey = s.unlockedKey ∧ t.logs = s.logs
    ∧ t.typingStatus = s.typingStatus ∧ t.secretData = s.secretData ∧ t.msg = s.msg := by
  induction ops generalizing s with
  | nil =>
    simp only [VerifyOp.run, Option.some.injEq] at hrun
    subst hrun
    exact ⟨hr, rfl, rfl, rfl, rfl, rfl, rfl, rfl, rfl⟩
  | cons op ops ih =>
    simp only [VerifyOp.run] at hrun
    split at hrun
    · rename_i hen
      cases op with
      | key e now =>
        have hc : (VerifyOp.apply js s (.key e now)).collector = s.collector := by
          simp [VerifyOp.apply, BiometricCollector.dispatch, hl]
        obtain ⟨h1, h2, h3, h4⟩ := ih (VerifyOp.apply js s (.key e now)) hr
          (by rw [hc]; exact hl) hrun
        exact ⟨h1, h2, by rw [h3, hc], h4⟩
      | typeText v => simp [VerifyOp.enabled, hr] at hen
      | tick now time => simp [VerifyOp.enabled, hr] at hen
      | cleanup => simp [VerifyOp.enabled, hr] at hen
      | resolved i res time =>
        have hs : VerifyOp.apply js s (.resolved i res time)
            = { s with inFlight := (verifyResolved js s i res time).inFlight } :=
          settle_unmounted s _ hr
        rw [hs] at hrun
        exact ih { s with inFlight := (verifyResolved js s i res time).inFlight } hr hl hrun
      | failed i status time =>
        have hs : VerifyOp.apply js s (.failed i status time)
            = { s with inFlight := (verifyFailed s i status time).inFlight } :=
          settle_unmounted s _ hr
        rw [hs] at hrun
        exact ih { s with inFlight := (verifyFailed s i status time).inFlight } hr hl hrun
    · cases hrun

/-- C16: when a `/verify` call succeeds with `{authenticated, confidence, key}`,
the confidence becomes `confidence`; with `authenticated` the session key
becomes `key` and, the key being present, the success entry is put at the head
of the log; without it the session key becomes absent and the warning entry is
put at the head of the log. -/
theorem verify_success_updates_trust (js : Builtins) (s : VerificationState) (i : Nat)
    (res : VerifyResponse) (time : String) :
    (verifyResolved js s i res time).confidence = res.confidence
    ∧ (res.authenticated = true → (verifyResolved js s i res time).unlockedKey = res.key)
    ∧ (res.authenticated = true → ∀ k, res.key = some k →
        (verifyResolved js s i res time).unlockedKey = some k
        ∧ (verifyResolved js s i res time).logs
          = ({ time := time,
               text := "Auth Success (Score: " ++ js.toFixed0 res.confidence ++ "%)",
               type := .success } :: s.logs).take 10)
    ∧ (res.authenticated = false →
        (verifyResolved js s i res time).unlockedKey = none
        ∧ (verifyResolved js s i res time).logs
          = ({ time := time,
               text := "Auth Failed (Score: " ++ js.toFixed0 res.confidence ++ "%)",
               type := .warning } :: s.logs).take 10) := by
  obtain ⟨auth, conf, key⟩ := res
  cases auth
  · simp [verifyResolved, addLog]
  · cases key with
    | none => simp [verifyResolved, verifyFailed, addLog]
    | some k => simp [verifyResolved, addLog]

/-- C16, at concrete inputs: an answer that authenticates with a key, and one
that does not. -/
theorem verify_success_updates_trust_witness :
    (verifyResolved asciiBuiltins awaiting 0 goodAnswer "12:00:05").unlockedKey = some "k3y"
    ∧ (verifyResolved asciiBuiltins awaiting 0 lowAnswer "12:00:05").unlockedKey = none :=
  ⟨((verify_success_updates_trust asciiBuiltins awaiting 0 goodAnswer "12:00:05").2.2.1
      rfl "k3y" rfl).1,
   ((verify_success_updates_trust asciiBuiltins awaiting 0 lowAnswer "12:00:05").2.2.2 rfl).1⟩

/-- C17: when a `/verify` call fails without status 401, the confidence and the
session key are as before, and the entry put at the head of the log is not the
one of a rejection with status 401, so the two logs differ. -/
theorem transport_failure_keeps_trust (s : VerificationState) (i : Nat) (status : Option Nat)
    (time : String) (h : status ≠ some 401) :
    (verifyFailed s i status time).confidence = s.confidence
    ∧ (verifyFailed s i status time).unlockedKey = s.unlockedKey
    ∧ (verifyFailed s i status time).logs
        = ({ time := time, text := "Server Error / Network Issue", type := .error }
            :: s.logs).take 10
    ∧ (verifyFailed s i (some 401) time).logs
        = ({ time := time, text := "Security Alert: Replay Detected!", type := .error }
            :: s.logs).take 10
    ∧ (verifyFailed s i status time).logs ≠ (verifyFailed s i (some 401) time).logs := by
  have hne : ("Server Error / Network Issue" : String) ≠ "Security Alert: Replay Detected!" := by
    decide
  simp [verifyFailed, addLog, h, hne]

/-- C17, at a concrete input: a failure with no response at all. -/
theorem transport_failure_keeps_trust_witness :
    (verifyFailed awaiting 0 none "12:00:05").confidence = awaiting.confidence
    ∧ (verifyFailed awaiting 0 none "12:00:05").unlockedKey = awaiting.unlockedKey :=
  have h := transport_failure_keeps_trust awaiting 0 none "12:00:05" (by decide)
  ⟨h.1, h.2.1⟩

/-- C18: a tick that finds 3 or more events and no persisted user id (none, or
the empty string) sends no `/verify` call, leaves the confidence and the
session key as they are and puts exactly one error entry at the head of the
log; the interval stays set, so the next tick can fire. -/
theorem missing_identity_skips_call (s : VerificationState) (now : ℕ) (time : String)
    (h3 : 3 ≤ s.collector.getEvents.length)
    (hid : s.user_id = none ∨ s.user_id = some "") :
    (tick s now time).sent = s.sent
    ∧ (tick s now time).inFlight = s.inFlight
    ∧ (tick s now time).confidence = s.confidence
    ∧ (tick s now time).unlockedKey = s.unlockedKey
    ∧ (tick s now time).logs
        = ({ time := time, text := "No User ID found. Please Enroll first.", type := .error }
            :: s.logs).take 10
    ∧ (tick s now time).running = s.running
    ∧ (∀ n t, VerifyOp.enabled (tick s now time) (.tick n t) = VerifyOp.enabled s (.tick n t)) := by
  have h : ¬ s.collector.events.length < 3 := Nat.not_lt.2 h3
  rcases hid with hid | hid <;>
    simp [tick, BiometricCollector.getEvents, h, hid, addLog, VerifyOp.enabled]

/-- C18, at a concrete input: three events buffered and nothing persisted. -/
theorem missing_identity_skips_call_witness :
    (tick anonymous 4000 "12:00:04").sent = anonymous.sent
    ∧ (tick anonymous 4000 "12:00:04").logs.length = 2 :=
  have h := missing_identity_skips_call anonymous 4000 "12:00:04" (by decide) (Or.inl rfl)
  ⟨h.1, by rw [h.2.2.2.2.1]; decide⟩

/-- C19: after the cleanup of the effect no new cycle starts (the interval
stays cleared, no tick can fire and no `/verify` call is sent), and whatever
happens afterwards, the answer or failure of a call that was outstanding at
the cleanup included, the confidence, the session key and the log are as they
were at the cleanup, as are the other cells and the collector. -/
theorem cancelled_loop_keeps_trust (js : Builtins) (s : VerificationState)
    (ops : List VerifyOp) (t : VerificationState)
    (hrun : VerifyOp.run js (cleanup s) ops = some t) :
    t.running = false
    ∧ (∀ now time, VerifyOp.enabled t (.tick now time) = false)
    ∧ t.sent = s.sent
    ∧ t.confidence = s.confidence
    ∧ t.unlockedKey = s.unlockedKey
    ∧ t.logs = s.logs
    ∧ t.typingStatus = s.typingStatus
    ∧ t.secretData = s.secretData
    ∧ t.collector = (cleanup s).collector
    ∧ (∀ i res time,
        (VerifyOp.apply js (cleanup s) (.resolved i res time)).confidence = s.confidence
        ∧ (VerifyOp.apply js (cleanup s) (.resolved i res time)).unlockedKey = s.unlockedKey
        ∧ (VerifyOp.apply js (cleanup s) (.resolved i res time)).logs = s.logs)
    ∧ (∀ i status time,
        (VerifyOp.apply js (cleanup s) (.failed i status time)).confidence = s.confidence
        ∧ (VerifyOp.apply js (cleanup s) (.failed i status time)).unlockedKey = s.unlockedKey
        ∧ (VerifyOp.apply js (cleanup s) (.failed i status time)).logs = s.logs) := by
  obtain ⟨h1, h2, h3, h4, h5, h6, h7, h8, _⟩ := run_stopped js ops (cleanup s) t rfl rfl hrun
  refine ⟨h1, fun now time => by simp [VerifyOp.enabled, h1], h2, h4, h5, h6, h7, h8, h3,
    ?_, ?_⟩
  · intro i res time
    have hs : VerifyOp.apply js (cleanup s) (.resolved i res time)
        = { cleanup s with inFlight := (verifyResolved js (cleanup s) i res time).inFlight } :=
      settle_unmounted (cleanup s) _ rfl
    rw [hs]
    exact ⟨rfl, rfl, rfl⟩
  · intro i status time
    have hs : VerifyOp.apply js (cleanup s) (.failed i status time)
        = { cleanup s with inFlight := (verifyFailed (cleanup s) i status time).inFlight } :=
      settle_unmounted (cleanup s) _ rfl
    rw [hs]
    exact ⟨rfl, rfl, rfl⟩

/-- C19, at a concrete input: the call sent by a tick is answered, with a key,
after the cleanup; the session stays locked and the call is off the list. -/
theorem cancelled_loop_keeps_trust_witness :
    VerifyOp.run asciiBuiltins (cleanup awaiting)
        (stroke "c" 30 ++ [VerifyOp.resolved 0 goodAnswer "12:00:05"])
      = some ((stroke "c" 30 ++ [VerifyOp.resolved 0 goodAnswer "12:00:05"]).foldl
          (VerifyOp.apply asciiBuiltins) (cleanup awaiting))
    ∧ ((stroke "c" 30 ++ [VerifyOp.resolved 0 goodAnswer "12:00:05"]).foldl
        (VerifyOp.apply asciiBuiltins) (cleanup awaiting)).unlockedKey = awaiting.unlockedKey
    ∧ ((stroke "c" 30 ++ [VerifyOp.resolved 0 goodAnswer "12:00:05"]).foldl
        (VerifyOp.apply asciiBuiltins) (cleanup awaiting)).inFlight = []
    ∧ (VerifyOp.run asciiBuiltins mounted lateAnswerOps).map (fun u => u.unlockedKey)
        = some none :=
  have h := cancelled_loop_keeps_trust asciiBuiltins awaiting
    (stroke "c" 30 ++ [VerifyOp.resolved 0 goodAnswer "12:00:05"])
    ((stroke "c" 30 ++ [VerifyOp.resolved 0 goodAnswer "12:00:05"]).foldl
      (VerifyOp.apply asciiBuiltins) (cleanup awaiting)) rfl
  ⟨rfl, h.2.2.2.2.1, by decide, by decide⟩

/-! ## The collector: starting again -/

/-- C20 as stated fails: `start` on an armed collector that holds the two
entries of a stroke empties the buffer. -/
theorem start_again_empties_buffer :
    (BiometricCollector.new.start.handleAll strokeA).active = true
    ∧ (BiometricCollector.new.start.handleAll strokeA).events = acceptedEntries strokeA
    ∧ (BiometricCollector.new.start.handleAll strokeA).events.length = 2
    ∧ ((BiometricCollector.new.start.handleAll strokeA).start).events = []
    ∧ ((BiometricCollector.new.start.handleAll strokeA).start).events
        ≠ (BiometricCollector.new.start.handleAll strokeA).events :=
  ⟨rfl, rfl, rfl, rfl, by decide⟩

/-- C20 as amended: `start` on a collector that is already armed leaves it
armed with its listeners registered and empties the buffer, so `start`, events
`A`, `start` again leaves no entry; it changes nothing exactly when the buffer
is already empty, and a second `start` right after the first changes nothing.
The same holds of `handleFocus`, which calls it. -/
theorem start_rearms_and_empties (c : BiometricCollector) (A : List (KeyboardEvent × ℚ))
    (s : EnrollmentState) :
    c.start.active = true
    ∧ c.start.listening = true
    ∧ c.start.events = []
    ∧ ((c.start.handleAll A).start).active = true
    ∧ ((c.start.handleAll A).start).events = []
    ∧ (c.start = c ↔ (c.active = true ∧ c.listening = true ∧ c.events = []))
    ∧ c.start.start = c.start
    ∧ (handleFocus s).collector.events = []
    ∧ (handleFocus s).samples = s.samples := by
  refine ⟨rfl, rfl, rfl, rfl, rfl, ?_, rfl, rfl, rfl⟩
  obtain ⟨evs, act, lis⟩ := c
  simp only [BiometricCollector.start, BiometricCollector.mk.injEq]
  constructor
  · rintro ⟨h1, h2, h3⟩
    exact ⟨h2.symm, h3.symm, h1.symm⟩
  · rintro ⟨h1, h2, h3⟩
    exact ⟨h3.symm, h1.symm, h2.symm⟩

/-! ## The collector: stopping and reading -/

theorem handle_disarmed (c : BiometricCollector) (en : KeyboardEvent × ℚ)
    (h : c.active = false) : c.handle en = c := by
  obtain ⟨⟨ty, k, rep⟩, now⟩ := en
  cases ty <;>
    simp [BiometricCollector.handle, BiometricCollector.handleKeyDown,
      BiometricCollector.handleKeyUp, h]

theorem handleAll_disarmed (c : BiometricCollector) (es : List (KeyboardEvent × ℚ))
    (h : c.active = false) : c.handleAll es = c := by
  induction es with
  | nil => rfl
  | cons en es ih =>
    have step : c.handleAll (en :: es) = (c.handle en).handleAll es := rfl
    rw [step, handle_disarmed c en h]
    exact ih

/-- C21: `stop` returns the events buffered at the call, in capture order, and
disarms the collector: whatever key events are handled after it, by the
handlers or through the window, the buffer stays as it is; after the next
`start` events are buffered again. -/
theorem stop_returns_buffer_and_disarms (c : BiometricCollector)
    (es later : List (KeyboardEvent × ℚ)) :
    (c.call .stop).2 = some c.events
    ∧ c.stop.2 = c.events
    ∧ c.stop.1.active = false
    ∧ c.stop.1.listening = false
    ∧ (c.stop.1.handleAll es).events = c.stop.1.events
    ∧ (c.stop.1.handleAll es).events = c.events
    ∧ (∀ e now, (c.stop.1.handleKeyDown e now).events = c.events
        ∧ (c.stop.1.handleKeyUp e now).events = c.events)
    ∧ (∀ en, (c.stop.1.dispatch en).events = c.events)
    ∧ (((c.stop.1.handleAll es).start).handleAll later).events = acceptedEntries later := by
  have hd : c.stop.1.active = false := rfl
  have hall : c.stop.1.handleAll es = c.stop.1 := handleAll_disarmed _ es hd
  refine ⟨rfl, rfl, rfl, rfl, by rw [hall], by rw [hall]; rfl, ?_, ?_, ?_⟩
  · intro e now
    simp [BiometricCollector.handleKeyDown, BiometricCollector.handleKeyUp,
      BiometricCollector.stop]
  · intro en
    simp [BiometricCollector.dispatch, BiometricCollector.stop]
  · rw [handleAll_armed _ later rfl]
    simp [BiometricCollector.start]

/-- C22 as stated fails: after a stroke, `getEvents` right after `stop` returns
the two entries of the stroke, not the empty sequence. -/
theorem buffer_kept_after_stop :
    ((BiometricCollector.new.start.handleAll strokeA).stop.1).getEvents.length = 2
    ∧ ((BiometricCollector.new.start.handleAll strokeA).stop.1).getEvents ≠ [] :=
  ⟨rfl, by decide⟩

/-- C22 as amended: `stop` leaves the buffer as it is, so `getEvents` right
after `stop` returns the sequence that `stop` returned, empty exactly when the
buffer was empty at the call; the next `start` empties the buffer. -/
theorem stop_keeps_buffer (c : BiometricCollector) :
    (c.stop.1).getEvents = c.events
    ∧ (c.stop.1).getEvents = c.stop.2
    ∧ (((c.call .stop).1.call .getEvents).2 = (c.call .stop).2)
    ∧ ((c.stop.1).getEvents = [] ↔ c.events = [])
    ∧ ((c.stop.1).start).getEvents = [] :=
  ⟨rfl, rfl, rfl, Iff.rfl, rfl⟩

/-- C23: `getEvents` returns the buffered events in capture order and assigns
no field: the buffer and the armed flag are as before, and a second call with
no key event in between returns the same sequence. -/
theorem getEvents_reads_without_change (c : BiometricCollector) :
    (c.call .getEvents).2 = some c.events
    ∧ (c.call .getEvents).1 = c
    ∧ (c.call .getEvents).1.events = c.events
    ∧ (c.call .getEvents).1.active = c.active
    ∧ ((c.call .getEvents).1.call .getEvents).2 = (c.call .getEvents).2
    ∧ (∀ es, c.active = true →
        ((c.call .getEvents).1.handleAll es).getEvents = c.events ++ acceptedEntries es)
    ∧ c.getEvents = c.events := by
  refine ⟨rfl, rfl, rfl, rfl, rfl, ?_, rfl⟩
  intro es h
  have hc : (c.call .getEvents).1 = c := rfl
  rw [hc, handleAll_armed c es h]
  rfl

/-- C23, at a concrete input: a read, then a stroke, then a read. -/
theorem getEvents_reads_without_change_witness :
    ((BiometricCollector.new.start.call .getEvents).1.handleAll strokeA).getEvents
      = BiometricCollector.new.start.events ++ acceptedEntries strokeA :=
  (getEvents_reads_without_change BiometricCollector.new.start).2.2.2.2.2.1 strokeA rfl

/-! ## The log -/

theorem take_append_take (a b : List LogEntry) (n : Nat) :
    (a ++ b.take n).take n = (a ++ b).take n := by
  simp [List.take_append_eq_append_take, List.take_take]

theorem addLogs_logs (s : VerificationState) (es : List LogEntry) :
    (addLogs s es).logs = (es.reverse ++ s.logs).take 10
    ∨ (es = [] ∧ (addLogs s es).logs = s.logs) := by
  induction es generalizing s with
  | nil => exact Or.inr ⟨rfl, rfl⟩
  | cons e es ih =>
    left
    have step : addLogs s (e :: es) = addLogs (addLog s e.time e.text e.type) es := rfl
    have he : (addLog s e.time e.text e.type).logs = (e :: s.logs).take 10 := rfl
    rw [step]
    rcases ih (addLog s e.time e.text e.type) with h | ⟨h1, h2⟩
    · rw [h, he, take_append_take]
      simp [List.reverse_cons, List.append_assoc]
    · subst h1
      rw [h2, he]
      rfl

/-- C24: after `n` calls of `addLog` from the empty log, the log holds
`min n 10` entries, the most recently added ones, the latest first: it is the
reverse of the last `min n 10` entries added, and its head is the last entry
added. -/
theorem log_keeps_last_ten (s : VerificationState) (es : List LogEntry) :
    (addLogs { s with logs := [] } es).logs = es.reverse.take 10
    ∧ (addLogs { s with logs := [] } es).logs.length = min es.length 10
    ∧ (addLogs { s with logs := [] } es).logs = (es.drop (es.length - 10)).reverse
    ∧ (addLogs { s with logs := [] } es).logs.head? = es.getLast? := by
  have h : (addLogs { s with logs := [] } es).logs = es.reverse.take 10 := by
    rcases addLogs_logs { s with logs := [] } es with h | ⟨h1, h2⟩
    · simpa using h
    · subst h1
      rw [h2]
      rfl
  refine ⟨h, ?_, ?_, ?_⟩
  · rw [h, List.length_take, List.length_reverse, Nat.min_comm]
  · rw [h, List.take_reverse]
  · rw [h, List.head?_take, List.head?_reverse]
    simp

/-! ## The enrollment session: timers that fire late -/

/-- C25 (the code at the failing input): four accepted samples, an attempt that
does not match and, before its 3000 ms timer fires, the fifth accepted sample
lead to `ready_to_submit` with that timer still set; when it fires the status
is `idle` with five samples held, and `Complete Enrollment` is not offered. -/
theorem stale_timer_leaves_ready_to_submit :
    ∃ s, runOps asciiBuiltins (EnrollmentState.init 0) staleTimerOps = some s
      ∧ s.status = .ready_to_submit
      ∧ s.samples.length = 5
      ∧ s.timers = [Timer.mismatch]
      ∧ enabled s (.timer 0) = true
      ∧ (apply asciiBuiltins s (.timer 0)).status = .idle
      ∧ (apply asciiBuiltins s (.timer 0)).samples.length = 5
      ∧ enabled (apply asciiBuiltins s (.timer 0)) (.finish 7) = false :=
  ⟨staleTimerOps.foldl (apply asciiBuiltins) (EnrollmentState.init 0), by decide, by decide,
    by decide, by decide, by decide, by decide, by decide, by decide⟩

/-! ## The verification loop: what is sent -/

theorem payloadEvents_append (ps : List VerifyPayload) (p : VerifyPayload) :
    payloadEvents (ps ++ [p]) = payloadEvents ps ++ p.events := by
  induction ps with
  | nil => simp [payloadEvents]
  | cons q qs ih => simp [payloadEvents, ih, List.append_assoc]

theorem acceptedEntries_append (a b : List (KeyboardEvent × ℚ)) :
    acceptedEntries (a ++ b) = acceptedEntries a ++ acceptedEntries b := by
  simp [acceptedEntries, List.filter_append]

theorem keyEvents_cons (op : VerifyOp) (ops : List VerifyOp) :
    keyEvents (op :: ops) = keyEvents [op] ++ keyEvents ops := by
  cases op <;> rfl

/-- A tick adds nothing to what is sent or buffered: it moves the buffer into
one body, or drops it, or leaves all as it is. -/
theorem tick_events_sublist (s : VerificationState) (now : ℕ) (time : String) :
    (payloadEvents (tick s now time).sent ++ (tick s now time).collector.events).Sublist
      (payloadEvents s.sent ++ s.collector.events) := by
  by_cases h3 : s.collector.events.length < 3
  · have h : tick s now time = s := by simp [tick, BiometricCollector.getEvents, h3]
    rw [h]
  · cases hu : s.user_id with
    | none =>
      have h : (tick s now time).sent = s.sent ∧ (tick s now time).collector.events = [] := by
        simp [tick, BiometricCollector.getEvents, h3, hu, addLog, BiometricCollector.reset]
      rw [h.1, h.2, List.append_nil]
      exact List.sublist_append_left _ _
    | some u =>
      by_cases he : u = ""
      · have h : (tick s now time).sent = s.sent ∧ (tick s now time).collector.events = [] := by
          simp [tick, BiometricCollector.getEvents, h3, hu, he, addLog, BiometricCollector.reset]
        rw [h.1, h.2, List.append_nil]
        exact List.sublist_append_left _ _
      · have h : (tick s now time).sent
              = s.sent ++ [{ user_id := u, events := s.collector.events,
                             request_ts := requestTs now }]
            ∧ (tick s now time).collector.events = [] := by
          simp [tick, BiometricCollector.getEvents, h3, hu, he, BiometricCollector.reset]
        rw [h.1, h.2, List.append_nil, payloadEvents_append]

theorem apply_events_sublist (js : Builtins) (s : VerificationState) (op : VerifyOp) :
    (payloadEvents (VerifyOp.apply js s op).sent
        ++ (VerifyOp.apply js s op).collector.events).Sublist
      ((payloadEvents s.sent ++ s.collector.events) ++ acceptedEntries (keyEvents [op])) := by
  cases op with
  | key e now =>
    by_cases hl : s.collector.listening = true
    · by_cases ha : s.collector.active = true
      · have h : (VerifyOp.apply js s (.key e now)).collector.events
            = s.collector.events ++ acceptedEntries [(e, now)] := by
          simp only [VerifyOp.apply, BiometricCollector.dispatch, hl, if_true]
          rw [handle_armed _ _ ha]
        have hs : (VerifyOp.apply js s (.key e now)).sent = s.sent := rfl
        rw [h, hs, ← List.append_assoc]
        exact List.Sublist.refl _
      · have h : (VerifyOp.apply js s (.key e now)).collector = s.collector := by
          simp only [VerifyOp.apply, BiometricCollector.dispatch, hl, if_true]
          exact handle_disarmed _ _ (by simpa using ha)
        have hs : (VerifyOp.apply js s (.key e now)).sent = s.sent := rfl
        rw [h, hs]
        exact List.sublist_append_left _ _
    · have h : (VerifyOp.apply js s (.key e now)).collector = s.collector := by
        simp [VerifyOp.apply, BiometricCollector.dispatch, hl]
      have hs : (VerifyOp.apply js s (.key e now)).sent = s.sent := rfl
      rw [h, hs]
      exact List.sublist_append_left _ _
  | typeText v => exact List.sublist_append_left _ _
  | cleanup => exact List.sublist_append_left _ _
  | tick now time =>
    exact (tick_events_sublist s now time).trans (List.sublist_append_left _ _)
  | resolved i res time =>
    have h1 := (settle_frame s _).2.1 (verifyResolved_sent js s i res time).1
    have h2 := (settle_frame s _).2.2.1 (verifyResolved_frame js s i res time).2
    simp only [VerifyOp.apply, h1, h2]
    exact List.sublist_append_left _ _
  | failed i status time =>
    have h1 := (settle_frame s _).2.1 (verifyFailed_sent s i status time).1
    have h2 := (settle_frame s _).2.2.1 (verifyFailed_frame s i status time).2.1
    simp only [VerifyOp.apply, h1, h2]
    exact List.sublist_append_left _ _

theorem run_events_sublist (js : Builtins) (ops : List VerifyOp) (s t : VerificationState)
    (hrun : VerifyOp.run js s ops = some t) :
    (payloadEvents t.sent ++ t.collector.events).Sublist
      ((payloadEvents s.sent ++ s.collector.events) ++ acceptedEntries (keyEvents ops)) := by
  induction ops generalizing s with
  | nil =>
    simp only [VerifyOp.run, Option.some.injEq] at hrun
    subst hrun
    exact List.sublist_append_left _ _
  | cons op ops ih =>
    simp only [VerifyOp.run] at hrun
    split at hrun
    · have h1 := ih _ hrun
      have h2 := apply_events_sublist js s op
      rw [keyEvents_cons, acceptedEntries_append, ← List.append_assoc]
      exact h1.trans (List.Sublist.append h2 (List.Sublist.refl _))
    · cases hrun

/-- C26: in every run of the loop, the events of all `/verify` bodies sent, in
order, followed by the events still buffered, are a subsequence of the
entries of the key events of the run: each captured event goes into at most
one body.  A tick that finds 3 or more events leaves the buffer empty, and no
tick puts an event back. -/
theorem events_sent_at_most_once (js : Builtins) (stored : Option String) (time : String)
    (ops : List VerifyOp) (t : VerificationState)
    (hrun : VerifyOp.run js (VerificationState.init stored time) ops = some t) :
    (payloadEvents t.sent ++ t.collector.events).Sublist (acceptedEntries (keyEvents ops))
    ∧ (∀ s now time2, 3 ≤ s.collector.getEvents.length →
        (tick s now time2).collector.events = [])
    ∧ (∀ s now time2,
        (payloadEvents (tick s now time2).sent ++ (tick s now time2).collector.events).Sublist
          (payloadEvents s.sent ++ s.collector.events)) := by
  refine ⟨?_, ?_, fun s now time2 => tick_events_sublist s now time2⟩
  · have h := run_events_sublist js ops _ t hrun
    simpa [VerificationState.init, addLog, payloadEvents, BiometricCollector.start] using h
  · intro s now time2 h3
    have h : ¬ s.collector.events.length < 3 := Nat.not_lt.2 h3
    cases hu : s.user_id with
    | none => simp [tick, BiometricCollector.getEvents, h, hu, addLog, BiometricCollector.reset]
    | some u =>
      by_cases he : u = ""
      · simp [tick, BiometricCollector.getEvents, h, hu, he, addLog, BiometricCollector.reset]
      · simp [tick, BiometricCollector.getEvents, h, hu, he, BiometricCollector.reset]

/-- C26, at a concrete input: two strokes, a tick that sends them, and a third
stroke that stays buffered. -/
theorem events_sent_at_most_once_witness :
    (payloadEvents (twoBatchOps.foldl (VerifyOp.apply asciiBuiltins) mounted).sent
        ++ (twoBatchOps.foldl (VerifyOp.apply asciiBuiltins) mounted).collector.events).Sublist
      (acceptedEntries (keyEvents twoBatchOps)) :=
  (events_sent_at_most_once asciiBuiltins (some "user_42") "12:00:00" twoBatchOps
    (twoBatchOps.foldl (VerifyOp.apply asciiBuiltins) mounted) rfl).1

/-! ## The validator: no trimming -/

/-- C27 as stated fails: with the target `i` followed by U+0307, two
characters, the typed capital I with a dot, one character, is a match, and
`handleSubmitSample` accepts the attempt as a sample. -/
theorem shorter_text_matches_after_lowercasing :
    dottedCapital.length = 1
    ∧ dottedSmall.length = 2
    ∧ dottedCapital.length ≠ dottedSmall.length
    ∧ mismatch dottedBuiltins dottedCapital dottedSmall = false
    ∧ (handleSubmitSample dottedBuiltins
        { wrongTextState with currentInput := dottedCapital,
                              targetText := dottedSmall }).samples.length
      = wrongTextState.samples.length + 1 := by
  decide

/-- C27 as amended: a typed text whose lower-cased form differs in length from
the lower-cased target phrase is a mismatch: `handleSubmitSample` takes its
mismatch branch and accepts no sample.  So is every text whose own length
differs from that of the phrase where lower-casing keeps the length of both, as
it does for all ASCII text.  Nothing is trimmed: the first phrase followed by a
space, preceded by a space, cut short, or preceded by U+0130 is a mismatch. -/
theorem lowercased_length_difference_is_mismatch (js : Builtins) (t p : String)
    (s : EnrollmentState)
    (hlen : (js.toLowerCase t).length ≠ (js.toLowerCase p).length) :
    mismatch js t p = true
    ∧ (handleSubmitSample js { s with currentInput := t, targetText := p }).status = .error
    ∧ (handleSubmitSample js { s with currentInput := t, targetText := p }).samples = s.samples
    ∧ (∀ x y : String, (js.toLowerCase x).length = x.length →
        (js.toLowerCase y).length = y.length → x.length ≠ y.length →
        mismatch js x y = true)
    ∧ (∀ x y : String, x.length ≠ y.length → mismatch asciiBuiltins x y = true)
    ∧ mismatch asciiBuiltins (phraseAt 0 ++ " ") (phraseAt 0) = true
    ∧ mismatch asciiBuiltins (" " ++ phraseAt 0) (phraseAt 0) = true
    ∧ mismatch asciiBuiltins "the quick brown fox" (phraseAt 0) = true
    ∧ mismatch dottedBuiltins (dottedCapital ++ phraseAt 0) (phraseAt 0) = true := by
  have key : ∀ (b : Builtins) (x y : String),
      (b.toLowerCase x).length ≠ (b.toLowerCase y).length → mismatch b x y = true := by
    intro b x y h
    have hne : b.toLowerCase x ≠ b.toLowerCase y := fun he => h (by rw [he])
    simp [mismatch, hne]
  have hascii : ∀ x : String, (asciiBuiltins.toLowerCase x).length = x.length := by
    intro x
    show (x.data.map Char.toLower).length = x.data.length
    exact List.length_map _ _
  have hm := key js t p hlen
  refine ⟨hm, by simp [handleSubmitSample, hm], by simp [handleSubmitSample, hm], ?_, ?_,
    by decide, by decide, by decide, by decide⟩
  · intro x y hx hy hxy
    exact key js x y (by rw [hx, hy]; exact hxy)
  · intro x y hxy
    exact key asciiBuiltins x y (by rw [hascii x, hascii y]; exact hxy)

/-- C27 as amended, at a concrete input: the first phrase with a space after
it. -/
theorem lowercased_length_difference_is_mismatch_witness :
    mismatch asciiBuiltins (phraseAt 0 ++ " ") (phraseAt 0) = true
    ∧ (handleSubmitSample asciiBuiltins
        { wrongTextState with currentInput := phraseAt 0 ++ " ",
                              targetText := phraseAt 0 }).status = .error :=
  have h := lowercased_length_difference_is_mismatch asciiBuiltins (phraseAt 0 ++ " ")
    (phraseAt 0) wrongTextState (by decide)
  ⟨h.1, h.2.1⟩

end BehaviorKey
